import Mathlib

/-!
# Verification of the multi-source reconciliation engine

Shallow embedding of the core algorithms of the token-benchmark tool:
price selection (`src/calculator/price_selector.py`), DEX price
stabilization (`src/providers/dex/flipside_sql_provider.py`), valuation
helpers (`src/calculator/valuation.py`), allocation label mapping
(`src/allocation_mapper/mapper.py`), conflict detection
(`src/allocation_mapper/conflict_detector.py`) and vesting text parsing
(`src/allocation_mapper/vesting_parser.py`).

Python floats are modelled by exact rationals, timestamps and hours by
integers (seconds since epoch), fallible operations by `Option`.
Regular-expression matching (`re.search` with `IGNORECASE`) is modelled
by a small backtracking engine over a pattern AST that transcribes the
pattern strings from the source; match enumeration order follows
Python's leftmost-position, left-alternative-first, greedy-star
semantics.
-/

namespace TokenBench

/-- The `ConfidenceLevel` enum from `src/core/types.py`. -/
inductive ConfidenceLevel where
  | HIGH
  | MEDIUM
  | LOW
  | UNKNOWN
deriving DecidableEq, Repr

/-- The `PriceSelectionMethod` enum from `src/core/types.py`. -/
inductive PriceSelectionMethod where
  | EARLIEST_OPEN
  | EARLIEST_CLOSE
  | FIRST_HOUR_VWAP
  | FIRST_DAY_VWAP
  | MANUAL
deriving DecidableEq, Repr

/-- The `CanonicalBucket` enum from `src/core/types.py`. -/
inductive CanonicalBucket where
  | TEAM_FOUNDER
  | ADVISORS_PARTNER
  | INVESTORS
  | PUBLIC_SALES
  | AIRDROP
  | COMMUNITY_REWARDS
  | LISTING_LIQUIDITY
  | ECOSYSTEM_RD
  | TREASURY_RESERVE
  | UNKNOWN
deriving DecidableEq, Repr

/-- Position of a bucket in the `CanonicalBucket` declaration order
(`bucket_order.index` in `map_allocations`). -/
def CanonicalBucket.order : CanonicalBucket → Nat
  | .TEAM_FOUNDER => 0
  | .ADVISORS_PARTNER => 1
  | .INVESTORS => 2
  | .PUBLIC_SALES => 3
  | .AIRDROP => 4
  | .COMMUNITY_REWARDS => 5
  | .LISTING_LIQUIDITY => 6
  | .ECOSYSTEM_RD => 7
  | .TREASURY_RESERVE => 8
  | .UNKNOWN => 9

/-- The `DataSource` enum from `src/core/types.py`. -/
inductive DataSource where
  | COINGECKO
  | COINMARKETCAP
  | CRYPTORANK
  | FLIPSIDE
  | DROPSTAB
  | TOKENOMIST
  | MESSARI
  | ICODROPS
  | CHAINBROKER
  | TOKENUNLOCKS
  | CCXT
  | MANUAL
  | ESTIMATED
  | UNKNOWN
deriving DecidableEq, Repr

/-- The `VestingScheduleType` enum from `src/core/types.py`. -/
inductive VestingScheduleType where
  | LINEAR
  | CLIFF
  | STEP
  | CUSTOM
  | UNKNOWN
deriving DecidableEq, Repr

/-- The `ExchangeCandle` model from `src/core/models.py` (OHLCV candle).
Floats become rationals, the timestamp is in integer seconds. -/
structure ExchangeCandle where
  timestamp : Int
  openPrice : ℚ
  high : ℚ
  low : ℚ
  close : ℚ
  volume : ℚ
  volume_usd : Option ℚ := none
deriving DecidableEq, Repr

/-- The `ExchangeCandle.is_valid`: all OHLC strictly positive and high ≥ low. -/
def ExchangeCandle.is_valid (c : ExchangeCandle) : Bool :=
  decide (0 < c.openPrice) && decide (0 < c.high) && decide (0 < c.low)
    && decide (0 < c.close) && decide (c.low ≤ c.high)

/-- The `ExchangeListing` model from `src/core/models.py`. -/
structure ExchangeListing where
  exchange : String
  trading_pair : String
  first_candle : Option ExchangeCandle := none
  error : Option String := none
deriving DecidableEq, Repr

/-- The `ExchangeListing.has_data`: candle present and no error recorded. -/
def ExchangeListing.has_data (l : ExchangeListing) : Bool :=
  l.first_candle.isSome && l.error.isNone

/-- The `ReferencePrice` model from `src/core/models.py`.  The free-text
`notes` field is omitted: it is presentation-only and derived from
quantities already present here. -/
structure ReferencePrice where
  price_usd : ℚ
  timestamp : Int
  method : PriceSelectionMethod
  source_exchange : String
  source_pair : String
  confidence : ConfidenceLevel
deriving DecidableEq, Repr

/-- Lower-case a string (Python `str.lower`, ASCII range suffices here). -/
def lowerStr (s : String) : String :=
  String.mk (s.data.map Char.toLower)

/-- Upper-case a string (Python `str.upper`). -/
def upperStr (s : String) : String :=
  String.mk (s.data.map Char.toUpper)

/-- The `EXCHANGE_RELIABILITY` lookup from `src/calculator/price_selector.py`,
including the `.get(..., 50)` default for unknown venues. -/
def exchangeReliability (exchange : String) : Nat :=
  let e := lowerStr exchange
  if e = "binance" then 100
  else if e = "coinbase" then 95
  else if e = "okx" then 90
  else if e = "kraken" then 90
  else if e = "bybit" then 85
  else if e = "kucoin" then 80
  else if e = "gateio" then 75
  else if e = "htx" then 70
  else if e = "coingecko" then 50
  else 50

/-- The `PriceSelector._is_stablecoin_pair`: quote currency of `BASE/QUOTE`
is one of the stablecoin symbols; pairs without a slash never qualify. -/
def isStablecoinPair (pair : String) : Bool :=
  if pair.contains '/' then
    let quote := upperStr ((pair.splitOn "/").getLastD "")
    quote = "USDT" || quote = "USDC" || quote = "USD" || quote = "BUSD"
      || quote = "DAI" || quote = "TUSD"
  else
    false

/-! ## List helpers

`dedupFirst` models the key order of a Python `dict` built by insertion
(first occurrence wins); `pyStableSort` models Python's stable
`list.sort` by decorating elements with their original index and
sorting by the (key, index) pair, which for a total preorder `le` on
elements yields exactly the stable sorted permutation. -/

/-- Keep the first occurrence of each element, in first-occurrence order
(iteration order of Python `dict` keys / `defaultdict` keys). -/
def dedupFirst [DecidableEq α] : List α → List α :=
  go []
where
  go (seen : List α) : List α → List α
    | [] => []
    | x :: xs => if x ∈ seen then go seen xs else x :: go (x :: seen) xs

/-- Insert into a Bool-ordered list, before the first element not
`le`-below the inserted one. -/
def orderedInsertB (le : α → α → Bool) (x : α) : List α → List α
  | [] => [x]
  | y :: ys => if le x y then x :: y :: ys else y :: orderedInsertB le x ys

/-- Insertion sort driven by a Bool comparison. -/
def insertionSortB (le : α → α → Bool) : List α → List α
  | [] => []
  | x :: xs => orderedInsertB le x (insertionSortB le xs)

/-- Python's stable sort with comparison key `le` (a total preorder):
decorate with original indices, sort by (key, index). -/
def pyStableSort (le : α → α → Bool) (l : List α) : List α :=
  let le2 : (Nat × α) → (Nat × α) → Bool := fun a b =>
    if le a.2 b.2 && le b.2 a.2 then decide (a.1 ≤ b.1) else le a.2 b.2
  (insertionSortB le2 l.enum).map (·.2)

/-! ## PriceSelector (`src/calculator/price_selector.py`) -/

/-- Configuration of `PriceSelector.__init__` (selection method is
passed separately, as in `select`). -/
structure PriceSelectorCfg where
  min_volume_usd : ℚ := 1000
  max_price_deviation_pct : ℚ := 50
deriving Repr

/-- The `PriceSelector._filter_valid_listings`: keep listings with data and
a valid candle; when `volume_usd` is present and truthy (non-zero) it
must reach the configured minimum. -/
def filterValidListings (cfg : PriceSelectorCfg) (listings : List ExchangeListing) :
    List ExchangeListing :=
  listings.filter fun l =>
    match l.first_candle with
    | none => false
    | some candle =>
      l.has_data && candle.is_valid &&
        (match candle.volume_usd with
         | none => true
         | some v => decide (v = 0) || decide (cfg.min_volume_usd ≤ v))

/-- Median as computed in `PriceSelector._filter_outliers`: sort, take
the middle element, averaging the two middles for even length. -/
def medianOf (prices : List ℚ) : ℚ :=
  let sorted := insertionSortB (fun a b => decide (a ≤ b)) prices
  let mid := sorted.length / 2
  if sorted.length % 2 = 0 then
    (sorted.getD (mid - 1) 0 + sorted.getD mid 0) / 2
  else
    sorted.getD mid 0

/-- The `filtered` list built inside `_filter_outliers` for the ≥ 3 case:
listings whose open deviates from the median of all opens by at most the
configured percentage (rows without a candle are dropped there). -/
def outlierSurvivors (cfg : PriceSelectorCfg) (listings : List ExchangeListing) :
    List ExchangeListing :=
  let prices := listings.filterMap (fun l => l.first_candle.map (·.openPrice))
  let median := medianOf prices
  listings.filter fun l =>
    match l.first_candle with
    | none => false
    | some c => decide (|c.openPrice - median| / median * 100 ≤ cfg.max_price_deviation_pct)

/-- The `PriceSelector._filter_outliers`: below 3 listings return the input
unchanged; otherwise drop outliers, falling back to the whole input when
everything would be dropped. -/
def filterOutliers (cfg : PriceSelectorCfg) (listings : List ExchangeListing) :
    List ExchangeListing :=
  if listings.length < 3 then listings
  else if (listings.filterMap fun l => l.first_candle.map (·.openPrice)).isEmpty then listings
  else if (outlierSurvivors cfg listings).isEmpty then listings
  else outlierSurvivors cfg listings

/-- The `PriceSelector._get_price_from_candle`. -/
def getPriceFromCandle (candle : ExchangeCandle) : PriceSelectionMethod → ℚ
  | .EARLIEST_OPEN => candle.openPrice
  | .EARLIEST_CLOSE => candle.close
  | .FIRST_HOUR_VWAP => (candle.openPrice + candle.high + candle.low + candle.close) / 4
  | .FIRST_DAY_VWAP => (candle.openPrice + candle.high + candle.low + candle.close) / 4
  | .MANUAL => candle.openPrice

/-- Candle timestamp of a listing (in `select` every listing reaching
this point has a candle; the default is never used on such inputs). -/
def tsOf (l : ExchangeListing) : Int :=
  (l.first_candle.map (·.timestamp)).getD 0

/-- The comparison key of `ranking_key` in `select`, as a Bool total
preorder: (timestamp, stablecoin preferred, reliability descending). -/
def rankingLe (a b : ExchangeListing) : Bool :=
  let ka : Int × Int × Int :=
    (tsOf a, if isStablecoinPair a.trading_pair then -1 else 0,
      -(exchangeReliability a.exchange : Int))
  let kb : Int × Int × Int :=
    (tsOf b, if isStablecoinPair b.trading_pair then -1 else 0,
      -(exchangeReliability b.exchange : Int))
  decide (ka.1 < kb.1) ||
    (decide (ka.1 = kb.1) &&
      (decide (ka.2.1 < kb.2.1) ||
        (decide (ka.2.1 = kb.2.1) && decide (ka.2.2 ≤ kb.2.2))))

/-- The listing `select` picks: valid listings, outlier filtering,
stable sort by candle timestamp, candidates within one hour of the
earliest, ranked by `ranking_key` when more than one. -/
def selectedListing (cfg : PriceSelectorCfg) (listings : List ExchangeListing) :
    Option ExchangeListing :=
  let valid := filterValidListings cfg listings
  if valid.isEmpty then none
  else
    let filtered := filterOutliers cfg valid
    let sortedF := pyStableSort (fun a b => decide (tsOf a ≤ tsOf b)) filtered
    match sortedF with
    | [] => none
    | first :: rest =>
      let t0 := tsOf first
      let candidates := (first :: rest).filter fun l => decide (tsOf l ≤ t0 + 3600)
      let ranked := if 1 < candidates.length then pyStableSort rankingLe candidates
                    else candidates
      ranked.head?

/-- The content of the local `valid_listings` at the point where
`select` computes the confidence.  `filtered_listings` aliases
`valid_listings` whenever `_filter_outliers` returned its argument (list
shorter than 3, or every listing dropped as outlier), and the in-place
`filtered_listings.sort(...)` then also reorders `valid_listings`. -/
def validAtConfidence (cfg : PriceSelectorCfg) (valid : List ExchangeListing) :
    List ExchangeListing :=
  if 3 ≤ valid.length ∧ ¬(outlierSurvivors cfg valid).isEmpty then valid
  else pyStableSort (fun a b => decide (tsOf a ≤ tsOf b)) valid

/-- Deviation (in percent) of `price` from the mean of the opens of the
first five listings of `validConf` (`valid_listings[:5]` in `select`). -/
def top5Deviation (validConf : List ExchangeListing) (price : ℚ) : ℚ :=
  let prices := (validConf.take 5).filterMap (fun l => l.first_candle.map (·.openPrice))
  let avg := prices.sum / (prices.length : ℚ)
  |price - avg| / avg * 100

/-- The confidence block at the end of `select`: the 5%-of-top-5 test
when at least 3 valid listings exist, `elif` the reliability test. -/
def selectConfidence (cfg : PriceSelectorCfg) (listings : List ExchangeListing)
    (sel : ExchangeListing) (price : ℚ) : ConfidenceLevel :=
  if 3 ≤ (filterValidListings cfg listings).length then
    if top5Deviation (validAtConfidence cfg (filterValidListings cfg listings)) price < 5 then
      ConfidenceLevel.HIGH
    else ConfidenceLevel.MEDIUM
  else if 90 ≤ exchangeReliability sel.exchange then ConfidenceLevel.HIGH
  else ConfidenceLevel.MEDIUM

/-- The `PriceSelector.select`.  Returns `none` exactly when no valid
listing remains (the source logs and returns `None`). -/
def select (cfg : PriceSelectorCfg) (listings : List ExchangeListing)
    (method : PriceSelectionMethod) : Option ReferencePrice :=
  if (filterValidListings cfg listings).isEmpty then none
  else
    match selectedListing cfg listings with
    | none => none
    | some sel =>
      match sel.first_candle with
      | none => none
      | some candle =>
        some { price_usd := getPriceFromCandle candle method
               timestamp := candle.timestamp
               method := method
               source_exchange := sel.exchange
               source_pair := sel.trading_pair
               confidence := selectConfidence cfg listings sel (getPriceFromCandle candle method) }

/-- The `PriceSelector.select_with_fallback`: try `select`, then fall back
to the CoinGecko listing with confidence LOW. -/
def selectWithFallback (cfg : PriceSelectorCfg) (exchangeListings : List ExchangeListing)
    (coingecko : Option ExchangeListing) (method : PriceSelectionMethod) :
    Option ReferencePrice :=
  match select cfg exchangeListings method with
  | some r => some r
  | none =>
    match coingecko with
    | none => none
    | some cg =>
      if cg.has_data then
        match cg.first_candle with
        | none => none
        | some candle =>
          some { price_usd := getPriceFromCandle candle method
                 timestamp := candle.timestamp
                 method := method
                 source_exchange := "coingecko"
                 source_pair := cg.trading_pair
                 confidence := ConfidenceLevel.LOW }
      else none

/-! ## Valuation helpers (`src/calculator/valuation.py`) -/

/-- The `calc_fdv`. -/
def calc_fdv (total_supply price : ℚ) : ℚ := total_supply * price

/-- The `calc_market_cap`. -/
def calc_market_cap (circulating_supply price : ℚ) : ℚ := circulating_supply * price

/-- The `calc_fdv_to_raised`: `none` models the `ValueError` raised when
`total_raised ≤ 0`; otherwise the ratio is returned. -/
def calc_fdv_to_raised (fdv total_raised : ℚ) : Option ℚ :=
  if total_raised ≤ 0 then none else some (fdv / total_raised)

/-! ## DEX stabilization (`src/providers/dex/flipside_sql_provider.py`)

`find_stabilization_hour` first fetches hourly swap rows over HTTP
(`get_dex_swaps_hourly`, out-of-scope I/O); the convergence logic is
embedded here as a function of the already-fetched row list.  The
grouping `dict` is modelled by filtering the row list per hour, which
reproduces both the per-hour row order (insertion order) and the key
set. -/

/-- The `DEXSwapData` row (hour truncated to the hour, modelled in seconds). -/
structure DEXSwapData where
  hour : Int
  swap_program : String
  avg_price : Option ℚ := none
  swap_count : Nat := 0
  volume_usd : Option ℚ := none
deriving DecidableEq, Repr

/-- Round half to even (Python `round`), on exact rationals. -/
def roundHalfEven (q : ℚ) : Int :=
  let f := q.floor
  let r := q - (f : ℚ)
  if r < 1/2 then f
  else if 1/2 < r then f + 1
  else if f % 2 = 0 then f else f + 1

/-- Python `round(x, n)` on exact rationals. -/
def roundTo (n : Nat) (q : ℚ) : ℚ :=
  (roundHalfEven (q * (10 : ℚ) ^ n) : ℚ) / (10 : ℚ) ^ n

/-- The `DEXStabilizationResult` (the `source` audit field is omitted: it is
a constant URL reference). `dex_prices` keeps the per-venue insertion
order of the Python dict comprehension. -/
structure DEXStabilizationResult where
  stabilization_hour : Int
  reference_price : ℚ
  spread_pct : ℚ
  confidence : String
  dex_prices : List (String × ℚ)
  total_swaps : Nat
deriving DecidableEq, Repr

/-- The `valid_swaps` of an hour: rows of that hour whose `avg_price` is
truthy and positive (`s.avg_price and s.avg_price > 0`).  There is no
condition on `swap_count`. -/
def qualifyingAt (swaps : List DEXSwapData) (h : Int) : List DEXSwapData :=
  (swaps.filter fun s => s.hour = h).filter fun s =>
    match s.avg_price with
    | none => false
    | some p => decide (0 < p)

/-- Prices of a list of qualifying rows (`avg_price` present by
construction; the default is never used on qualifying rows). -/
def pricesOf (qs : List DEXSwapData) : List ℚ :=
  qs.map fun s => s.avg_price.getD 0

/-- Minimum of a price list (Python `min`; 0 stands for the unreachable
empty case). -/
def listMin (l : List ℚ) : ℚ :=
  match l with
  | [] => 0
  | x :: xs => xs.foldl min x

/-- Maximum of a price list (Python `max`). -/
def listMax (l : List ℚ) : ℚ :=
  match l with
  | [] => 0
  | x :: xs => xs.foldl max x

/-- The `spread_pct = (max_price - min_price) / min_price * 100`. -/
def spreadPctOf (qs : List DEXSwapData) : ℚ :=
  let ps := pricesOf qs
  (listMax ps - listMin ps) / listMin ps * 100

/-- Total swap count of the qualifying rows (`total_volume`). -/
def totalSwapsOf (qs : List DEXSwapData) : Nat :=
  (qs.map (·.swap_count)).sum

/-- Swap-count-weighted average price of the qualifying rows.  When the
total weight is zero the Python code raises `ZeroDivisionError`; the
rational division then yields the junk value 0, a case no claim
touches. -/
def vwapOf (qs : List DEXSwapData) : ℚ :=
  (qs.map fun s => s.avg_price.getD 0 * (s.swap_count : ℚ)).sum / (totalSwapsOf qs : ℚ)

/-- Confidence string assigned in the stabilization branch:
`"HIGH" if spread_pct < 0.5 else "MEDIUM" if spread_pct < 1.0 else "LOW"`. -/
def stabilizationConfidence (spread : ℚ) : String :=
  if spread < 1/2 then "HIGH" else if spread < 1 then "MEDIUM" else "LOW"

/-- The result built for a stabilization hour `h`. -/
def stabilizationResultAt (swaps : List DEXSwapData) (h : Int) : DEXStabilizationResult :=
  let qs := qualifyingAt swaps h
  let spread := spreadPctOf qs
  { stabilization_hour := h
    reference_price := roundTo 4 (vwapOf qs)
    spread_pct := roundTo 2 spread
    confidence := stabilizationConfidence spread
    dex_prices := qs.map fun s => (s.swap_program, roundTo 4 (s.avg_price.getD 0))
    total_swaps := totalSwapsOf qs }

/-- Loop of `find_stabilization_hour` over the sorted hour keys. -/
def findStabilizationGo (swaps : List DEXSwapData) (maxSpreadPct : ℚ)
    (minDexCount : Nat) : List Int → Option DEXStabilizationResult
  | [] => none
  | h :: hs =>
    let qs := qualifyingAt swaps h
    if qs.length < minDexCount then findStabilizationGo swaps maxSpreadPct minDexCount hs
    else if spreadPctOf qs ≤ maxSpreadPct then some (stabilizationResultAt swaps h)
    else findStabilizationGo swaps maxSpreadPct minDexCount hs

/-- Convergence core of `FlipsideSQLProvider.find_stabilization_hour`
(defaults: `max_spread_pct = 1.0`, `min_dex_count = 3`), applied to the
fetched hourly rows. -/
def find_stabilization_hour (swaps : List DEXSwapData) (maxSpreadPct : ℚ)
    (minDexCount : Nat) : Option DEXStabilizationResult :=
  if swaps.isEmpty then none
  else
    let hours := (dedupFirst (swaps.map (·.hour))).insertionSort (· ≤ ·)
    findStabilizationGo swaps maxSpreadPct minDexCount hours

/-! ## Regex engine

A small backtracking matcher for the pattern subset used by the source
(`re.search`, optionally `IGNORECASE`): character classes, sequencing,
alternation (left preferred), greedy star, one capture group, negative
lookahead, and the `^`/`$` anchors.  `RE.run` enumerates outcomes in
Python's backtracking priority order; `reSearch` takes the first
outcome at the leftmost matching position, exactly like `re.search`.
Case-insensitive matching is modelled by lower-casing the subject
before the search (all pattern literals below are lower case). -/

/-- Pattern AST. -/
inductive RE where
  | eps
  | cls (p : Char → Bool)
  | seq (a b : RE)
  | alt (a b : RE)
  | star (a : RE)
  | grp (a : RE)
  | nla (a : RE)
  | eos

/-- Structural size, used only to compute a sufficient fuel. -/
def RE.size : RE → Nat
  | .eps => 1
  | .eos => 1
  | .cls _ => 1
  | .seq a b => a.size + b.size + 1
  | .alt a b => a.size + b.size + 1
  | .star a => a.size + 1
  | .grp a => a.size + 1
  | .nla a => a.size + 1

/-- Enumerate match outcomes of `re` against `s` in backtracking
priority order.  Each outcome is the remaining suffix together with the
capture of group 1, if any.  The star only iterates on progress, so the
fuel computed by `reFuel` is always sufficient. -/
def RE.run : Nat → RE → List Char → Option (List Char) →
    List (List Char × Option (List Char))
  | 0, _, _, _ => []
  | _ + 1, .eps, s, cap => [(s, cap)]
  | _ + 1, .cls p, s, cap =>
    match s with
    | [] => []
    | c :: rest => if p c then [(rest, cap)] else []
  | fuel + 1, .seq a b, s, cap =>
    (RE.run fuel a s cap).flatMap fun rc => RE.run fuel b rc.1 rc.2
  | fuel + 1, .alt a b, s, cap => RE.run fuel a s cap ++ RE.run fuel b s cap
  | fuel + 1, .star a, s, cap =>
    ((RE.run fuel a s cap).flatMap fun rc =>
      if rc.1.length < s.length then RE.run fuel (.star a) rc.1 rc.2 else []) ++ [(s, cap)]
  | fuel + 1, .grp a, s, cap =>
    (RE.run fuel a s cap).map fun rc => (rc.1, some (s.take (s.length - rc.1.length)))
  | fuel + 1, .nla a, s, cap =>
    if (RE.run fuel a s cap).isEmpty then [(s, cap)] else []
  | _ + 1, .eos, s, cap => if s.isEmpty then [(s, cap)] else []

/-- Fuel that is ample for the patterns and subjects in this file. -/
def reFuel (re : RE) (s : List Char) : Nat :=
  (re.size + 2) * (s.length + 2) * 2

/-- All outcomes of matching `re` at the start of `s`. -/
def reMatchesAt (re : RE) (s : List Char) : List (List Char × Option (List Char)) :=
  RE.run (reFuel re s) re s none

/-- The `re.search` for a pattern anchored at `^`: match only at position 0;
result is the group-1 capture of the first outcome. -/
def reSearchAnchored (re : RE) (s : List Char) : Option (Option (List Char)) :=
  (reMatchesAt re s).head?.map (·.2)

/-- The `re.search` for an unanchored pattern: leftmost matching position,
first outcome there. -/
def reSearch (re : RE) : List Char → Option (Option (List Char))
  | [] => (reMatchesAt re []).head?.map (·.2)
  | c :: rest =>
    match (reMatchesAt re (c :: rest)).head? with
    | some rc => some rc.2
    | none => reSearch re rest

/-- Literal character sequence. -/
def rlit (s : String) : RE :=
  (s.data.map fun c => RE.cls (· == c)).foldr RE.seq RE.eps

/-- The `.` (no newlines occur in the modelled subjects). -/
def rany : RE := RE.cls fun _ => true

/-- The `.*` (greedy). -/
def dotStar : RE := RE.star rany

/-- The `\d`. -/
def rdigit : RE := RE.cls Char.isDigit

/-- The `\s`. -/
def rspace : RE := RE.cls Char.isWhitespace

/-- The `x+` as `x · x*`. -/
def rplus (a : RE) : RE := RE.seq a (RE.star a)

/-- The `x?` (greedy: presence preferred). -/
def ropt (a : RE) : RE := RE.alt a RE.eps

/-- Alternation of a non-empty list, left to right. -/
def raltList : List RE → RE
  | [] => RE.eps
  | [r] => r
  | r :: rs => RE.alt r (raltList rs)

/-- Sequence of a list of patterns. -/
def rseqList (l : List RE) : RE := l.foldr RE.seq RE.eps

/-- The `a.*b` (used for the many `^a.*b` mapper patterns). -/
def rthen (a b : String) : RE := rseqList [rlit a, dotStar, rlit b]

/-- The `a(?!.*b)` (negative lookahead mapper patterns). -/
def rnotAfter (a b : String) : RE := RE.seq (rlit a) (RE.nla (RE.seq dotStar (rlit b)))

/-! ## Vesting parser (`src/allocation_mapper/vesting_parser.py`) -/

/-- The `VestingTerms` model from `src/core/models.py` (fields not produced
by the parser are omitted). -/
structure VestingTerms where
  tge_unlock_pct : Option ℚ := none
  cliff_months : Option Int := none
  vesting_months : Option Int := none
  schedule_type : VestingScheduleType := .UNKNOWN
  unlock_frequency : Option String := none
  raw_description : Option String := none
deriving DecidableEq, Repr

/-- Digits to a natural number. -/
def natOfDigits (cs : List Char) : Nat :=
  cs.foldl (fun n c => n * 10 + (c.toNat - 48)) 0

/-- The `float` of a captured `\d+(\.\d+)?` string. -/
def ratOfNumStr (cs : List Char) : ℚ :=
  let intPart := cs.takeWhile (· ≠ '.')
  let rest := cs.dropWhile (· ≠ '.')
  match rest with
  | [] => (natOfDigits intPart : ℚ)
  | _ :: frac => (natOfDigits intPart : ℚ) + (natOfDigits frac : ℚ) / (10 : ℚ) ^ frac.length

/-- The `PATTERNS["tge_unlock"]`:
`(\d+(?:\.\d+)?)\s*%?\s*(?:at\s+)?(?:tge|launch|listing|initial|unlock)` and
`(?:tge|launch|listing|initial)\s*(?:unlock)?\s*(?:of\s+)?(\d+(?:\.\d+)?)\s*%`.
The Bool flags whether the pattern text contains `"year"`
(`_extract_number`'s year-to-month conversion test). -/
def tgePatterns : List (RE × Bool) :=
  let num := RE.grp (RE.seq (rplus rdigit) (ropt (RE.seq (rlit ".") (rplus rdigit))))
  [ (rseqList [num, RE.star rspace, ropt (rlit "%"), RE.star rspace,
      ropt (RE.seq (rlit "at") (rplus rspace)),
      raltList [rlit "tge", rlit "launch", rlit "listing", rlit "initial", rlit "unlock"]],
     false),
    (rseqList [raltList [rlit "tge", rlit "launch", rlit "listing", rlit "initial"],
      RE.star rspace, ropt (rlit "unlock"), RE.star rspace,
      ropt (RE.seq (rlit "of") (rplus rspace)), num, RE.star rspace, rlit "%"],
     false) ]

/-- The `PATTERNS["cliff_months"]`:
`(\d+)\s*[-]?\s*(?:month|mo|m)\s*cliff`, `cliff\s*(?:of\s+)?(\d+)\s*(?:month|mo|m)`,
`(\d+)\s*year\s*cliff`. -/
def cliffPatterns : List (RE × Bool) :=
  let num := RE.grp (rplus rdigit)
  let mon := raltList [rlit "month", rlit "mo", rlit "m"]
  [ (rseqList [num, RE.star rspace, ropt (rlit "-"), RE.star rspace, mon,
      RE.star rspace, rlit "cliff"], false),
    (rseqList [rlit "cliff", RE.star rspace, ropt (RE.seq (rlit "of") (rplus rspace)),
      num, RE.star rspace, mon], false),
    (rseqList [num, RE.star rspace, rlit "year", RE.star rspace, rlit "cliff"], true) ]

/-- The `PATTERNS["vesting_months"]`:
`(?:over|for|linear)\s*(\d+)\s*(?:month|mo|m)`,
`(\d+)\s*(?:month|mo|m)\s*(?:linear|vesting)`,
`(\d+)\s*year[s]?\s*(?:linear|vesting)`. -/
def vestingPatterns : List (RE × Bool) :=
  let num := RE.grp (rplus rdigit)
  let mon := raltList [rlit "month", rlit "mo", rlit "m"]
  let lv := raltList [rlit "linear", rlit "vesting"]
  [ (rseqList [raltList [rlit "over", rlit "for", rlit "linear"], RE.star rspace,
      num, RE.star rspace, mon], false),
    (rseqList [num, RE.star rspace, mon, RE.star rspace, lv], false),
    (rseqList [num, RE.star rspace, rlit "year", ropt (rlit "s"), RE.star rspace, lv], true) ]

/-- The `PATTERNS["linear"]`: `linear|straight|continuous`. -/
def linearPattern : RE := raltList [rlit "linear", rlit "straight", rlit "continuous"]

/-- The `PATTERNS["monthly"]`: `monthly|each\s*month`. -/
def monthlyPattern : RE :=
  RE.alt (rlit "monthly") (rseqList [rlit "each", RE.star rspace, rlit "month"])

/-- The `PATTERNS["quarterly"]`: `quarterly|every\s*(?:3|three)\s*month`. -/
def quarterlyPattern : RE :=
  RE.alt (rlit "quarterly")
    (rseqList [rlit "every", RE.star rspace, RE.alt (rlit "3") (rlit "three"),
      RE.star rspace, rlit "month"])

/-- The `PATTERNS["cliff_only"]`:
`cliff\s*(?:release|unlock)|(?:release|unlock)\s*after\s*cliff`. -/
def cliffOnlyPattern : RE :=
  RE.alt
    (rseqList [rlit "cliff", RE.star rspace, RE.alt (rlit "release") (rlit "unlock")])
    (rseqList [RE.alt (rlit "release") (rlit "unlock"), RE.star rspace, rlit "after",
      RE.star rspace, rlit "cliff"])

/-- The `VestingParser._extract_number`: first pattern of the list that
matches wins; year patterns are scaled by 12 when `multiplyYears`.  The
subject is already lower-cased by the caller (`IGNORECASE`). -/
def extractNumber (pats : List (RE × Bool)) (multiplyYears : Bool) (cs : List Char) :
    Option ℚ :=
  match pats with
  | [] => none
  | (re, isYear) :: rest =>
    match reSearch re cs with
    | some (some g) =>
      some (if multiplyYears && isYear then ratOfNumStr g * 12 else ratOfNumStr g)
    | some none => none
    | none => extractNumber rest multiplyYears cs

/-- The `VestingParser._detect_schedule_type`. -/
def detectScheduleType (cs : List Char) : VestingScheduleType :=
  if (reSearch cliffOnlyPattern cs).isSome then .CLIFF
  else if (reSearch linearPattern cs).isSome then .LINEAR
  else if (reSearch monthlyPattern cs).isSome then .STEP
  else if (reSearch quarterlyPattern cs).isSome then .STEP
  else .UNKNOWN

/-- The `VestingParser._detect_frequency`. -/
def detectFrequency (cs : List Char) : Option String :=
  if (reSearch monthlyPattern cs).isSome then some "monthly"
  else if (reSearch quarterlyPattern cs).isSome then some "quarterly"
  else none

/-- The `VestingParser.parse`.  Python truthiness is preserved: a numeric
value of `0` does not count as "extracted something", and a cliff of
`0` months collapses to `None` before the `int()` conversion. -/
def vestingParse (text : String) : Option VestingTerms :=
  let stripped := text.trim
  if stripped.isEmpty then none
  else
    let cs := (lowerStr stripped).data
    let tge := extractNumber tgePatterns false cs
    let cliffQ := extractNumber cliffPatterns true cs
    let vestQ := extractNumber vestingPatterns true cs
    let sched := detectScheduleType cs
    let freq := detectFrequency cs
    let cliffI : Option Int :=
      match cliffQ with
      | some q => if q = 0 then none else some q.floor
      | none => none
    let vestI : Option Int :=
      match vestQ with
      | some q => if q = 0 then none else some q.floor
      | none => none
    let tgeTruthy : Bool := match tge with | some q => decide (q ≠ 0) | none => false
    let cliffTruthy : Bool := match cliffI with | some i => decide (i ≠ 0) | none => false
    let vestTruthy : Bool := match vestI with | some i => decide (i ≠ 0) | none => false
    if tgeTruthy || cliffTruthy || vestTruthy || decide (sched ≠ .UNKNOWN) then
      some { tge_unlock_pct := tge
             cliff_months := cliffI
             vesting_months := vestI
             schedule_type := sched
             unlock_frequency := freq
             raw_description := some stripped }
    else
      some { raw_description := some stripped }

/-! ## Allocation mapper (`src/allocation_mapper/mapper.py`)

The mapper is modelled in its default configuration (no YAML config
file, hence `DEFAULT_MAPPING_RULES` and no source overrides).  Python's
`list(set(x))` materializes a set in an unspecified but deterministic
order that depends only on the element set; it is modelled canonically
by sorting the deduplicated elements. -/

/-- Declaration index of a `DataSource` (used to canonicalize sets). -/
def DataSource.idx : DataSource → Nat
  | .COINGECKO => 0
  | .COINMARKETCAP => 1
  | .CRYPTORANK => 2
  | .FLIPSIDE => 3
  | .DROPSTAB => 4
  | .TOKENOMIST => 5
  | .MESSARI => 6
  | .ICODROPS => 7
  | .CHAINBROKER => 8
  | .TOKENUNLOCKS => 9
  | .CCXT => 10
  | .MANUAL => 11
  | .ESTIMATED => 12
  | .UNKNOWN => 13

/-- Canonical form of Python's `list(set(l))`: deduplicate, then order
by `le` (the set's iteration order is a deterministic function of the
element set only, which is all downstream equality depends on). -/
def pySetList (le : α → α → Bool) [DecidableEq α] (l : List α) : List α :=
  insertionSortB le (dedupFirst l)

/-- The `CanonicalBucket.display_name` from `src/core/types.py`. -/
def CanonicalBucket.display_name : CanonicalBucket → String
  | .TEAM_FOUNDER => "Team / Founder"
  | .ADVISORS_PARTNER => "Advisors / Partners"
  | .INVESTORS => "Investors"
  | .PUBLIC_SALES => "Public Sales"
  | .AIRDROP => "Airdrop"
  | .COMMUNITY_REWARDS => "Community / Rewards"
  | .LISTING_LIQUIDITY => "Listing / Liquidity"
  | .ECOSYSTEM_RD => "Ecosystem / R&D"
  | .TREASURY_RESERVE => "Treasury / Reserve"
  | .UNKNOWN => "Unknown / Other"

/-- The `DEFAULT_MAPPING_RULES`: bucket, priority, and the compiled patterns
paired with their source strings (all patterns are `^`-anchored; the
strings are returned as `matched_rule`). -/
def defaultRules : List (CanonicalBucket × Nat × List (String × RE)) :=
  [ (.TEAM_FOUNDER, 10,
      [ ("^team$", RE.seq (rlit "team") RE.eos),
        ("^founder", rlit "founder"),
        ("^core.*team", rthen "core" "team"),
        ("^development.*team", rthen "development" "team"),
        ("^founding", rlit "founding"),
        ("^employee", rlit "employee"),
        ("^staff", rlit "staff"),
        ("^core.*contributor", rthen "core" "contributor") ]),
    (.ADVISORS_PARTNER, 10,
      [ ("^advisor", rlit "advisor"),
        ("^partner", rlit "partner"),
        ("^strategic.*partner", rthen "strategic" "partner"),
        ("^consultant", rlit "consultant") ]),
    (.INVESTORS, 10,
      [ ("^investor", rlit "investor"),
        ("^seed", rlit "seed"),
        ("^private", rlit "private"),
        ("^strategic.*sale", rthen "strategic" "sale"),
        ("^strategic.*round", rthen "strategic" "round"),
        ("^series.*[a-z]",
          rseqList [rlit "series", dotStar, RE.cls fun c => 'a' ≤ c && c ≤ 'z']),
        ("^vc", rlit "vc"),
        ("^venture", rlit "venture"),
        ("^early.*investor", rthen "early" "investor"),
        ("^pre.*seed", rthen "pre" "seed"),
        ("^angel", rlit "angel"),
        ("^launchpad", rlit "launchpad") ]),
    (.PUBLIC_SALES, 10,
      [ ("^public", rlit "public"),
        ("^ico$", RE.seq (rlit "ico") RE.eos),
        ("^ido$", RE.seq (rlit "ido") RE.eos),
        ("^ieo$", RE.seq (rlit "ieo") RE.eos),
        ("^token.*sale", rthen "token" "sale"),
        ("^crowd.*sale", rthen "crowd" "sale"),
        ("^community.*sale", rthen "community" "sale") ]),
    (.AIRDROP, 10,
      [ ("^airdrop", rlit "airdrop"),
        ("^air.*drop", rthen "air" "drop"),
        ("^retro.*drop", rthen "retro" "drop"),
        ("^retroactive", rlit "retroactive"),
        ("^user.*distribution", rthen "user" "distribution"),
        ("^user.*allocation", rthen "user" "allocation") ]),
    (.COMMUNITY_REWARDS, 9,
      [ ("^community(?!.*sale)", rnotAfter "community" "sale"),
        ("^reward", rlit "reward"),
        ("^incentive", rlit "incentive"),
        ("^mining", rlit "mining"),
        ("^staking.*reward", rthen "staking" "reward"),
        ("^yield", rlit "yield"),
        ("^emission", rlit "emission"),
        ("^farming", rlit "farming"),
        ("^liquidity.*mining", rthen "liquidity" "mining"),
        ("^governance.*reward", rthen "governance" "reward"),
        ("^contributor(?!.*core)", rnotAfter "contributor" "core"),
        ("^grant", rlit "grant"),
        ("^bounty", rlit "bounty") ]),
    (.LISTING_LIQUIDITY, 10,
      [ ("^listing", rlit "listing"),
        ("^liquidity(?!.*mining)", rnotAfter "liquidity" "mining"),
        ("^market.*mak", rthen "market" "mak"),
        ("^exchange", rlit "exchange"),
        ("^cex", rlit "cex"),
        ("^dex.*liquidity", rthen "dex" "liquidity"),
        ("^trading", rlit "trading") ]),
    (.ECOSYSTEM_RD, 8,
      [ ("^ecosystem", rlit "ecosystem"),
        ("^development(?!.*team)", rnotAfter "development" "team"),
        ("^r&d", rlit "r&d"),
        ("^research", rlit "research"),
        ("^protocol.*development", rthen "protocol" "development"),
        ("^network.*development", rthen "network" "development"),
        ("^growth", rlit "growth"),
        ("^adoption", rlit "adoption"),
        ("^integration", rlit "integration"),
        ("^foundation", rlit "foundation"),
        ("^dao(?!.*treasury)", rnotAfter "dao" "treasury") ]),
    (.TREASURY_RESERVE, 10,
      [ ("^treasury", rlit "treasury"),
        ("^reserve", rlit "reserve"),
        ("^strategic.*reserve", rthen "strategic" "reserve"),
        ("^emergency", rlit "emergency"),
        ("^insurance", rlit "insurance"),
        ("^protocol.*owned", rthen "protocol" "owned"),
        ("^dao.*treasury", rthen "dao" "treasury") ]) ]

/-- The `AllocationMapper.map_label` under the default rules (the mapper
built without a config file has no source overrides, so the override
branch never fires; the `source` argument is therefore unused).  Scans
every bucket's patterns in declaration order and keeps the candidate
with strictly highest priority (first seen wins ties). -/
def mapLabel (label : String) (_source : DataSource) : CanonicalBucket × String × Nat :=
  let cs := (lowerStr label.trim).data
  let best := defaultRules.foldl
    (fun best bucketRule =>
      bucketRule.2.2.foldl
        (fun best pat =>
          if (reSearchAnchored pat.2 cs).isSome then
            match best with
            | none => some (bucketRule.1, pat.1, bucketRule.2.1)
            | some b => if bucketRule.2.1 > b.2.2 then
                some (bucketRule.1, pat.1, bucketRule.2.1)
              else best
          else best)
        best)
    (none : Option (CanonicalBucket × String × Nat))
  best.getD (.UNKNOWN, "no_match", 0)

/-- The `RawAllocation` model from `src/core/models.py`. -/
structure RawAllocation where
  source : DataSource
  label : String
  percentage : Option ℚ := none
  amount : Option ℚ := none
  vesting : Option VestingTerms := none
deriving DecidableEq, Repr

/-- The `MappedAllocation` model from `src/core/models.py`. -/
structure MappedAllocation where
  canonical_bucket : CanonicalBucket
  display_name : String
  original_labels : List String
  percentage : Option ℚ := none
  amount : Option ℚ := none
  sources : List DataSource := []
  vesting : Option VestingTerms := none
  confidence : ConfidenceLevel := .MEDIUM
  mapping_rule : Option String := none
deriving DecidableEq, Repr

/-- The `AllocationConflict` model from `src/core/models.py` (the
`values` dict is an association list in insertion order). -/
structure AllocationConflict where
  canonical_bucket : CanonicalBucket
  sources_involved : List DataSource
  values : List (DataSource × ℚ)
  discrepancy_pct : ℚ
deriving DecidableEq, Repr

/-- The `AllocationData` model from `src/core/models.py`. -/
structure AllocationData where
  raw_allocations : List RawAllocation := []
  mapped_allocations : List MappedAllocation := []
  conflicts : List AllocationConflict := []
  total_percentage : Option ℚ := none
  is_complete : Bool := false
  sources_used : List DataSource := []
deriving DecidableEq, Repr

/-- String `≤` as a Bool comparison (canonical set order for labels). -/
def strLe (a b : String) : Bool := decide (a ≤ b)

/-- The `DataSource` canonical set order. -/
def dsLe (a b : DataSource) : Bool := decide (a.idx ≤ b.idx)

/-- The `MappedAllocation` aggregated for bucket `b` from the keyed raw
allocations of that bucket (body of the bucket loop of
`map_allocations`). -/
def aggregateBucket (b : CanonicalBucket)
    (items : List (RawAllocation × CanonicalBucket × String × Nat)) : MappedAllocation :=
  let pcts := items.filterMap (·.1.percentage)
  let amts := items.filterMap (·.1.amount)
  { canonical_bucket := b
    display_name := b.display_name
    original_labels := pySetList strLe (items.map (·.1.label))
    percentage := if pcts.isEmpty then none else some pcts.sum
    amount := if amts.isEmpty then none else some amts.sum
    sources := pySetList dsLe (items.map (·.1.source))
    vesting := (items.filterMap (·.1.vesting)).head?
    confidence := if (items.map (·.1.source)).contains DataSource.MANUAL then
        ConfidenceLevel.HIGH
      else ConfidenceLevel.MEDIUM
    mapping_rule := some (String.intercalate " | " (pySetList strLe (items.map (·.2.2.1)))) }

/-- The `AllocationMapper.map_allocations` (default rules).  Buckets are
grouped in first-occurrence order (a Python dict), aggregated, then
sorted by the canonical bucket order. -/
def mapAllocations (raws : List RawAllocation) : AllocationData :=
  if raws.isEmpty then {}
  else
    let keyed := raws.map fun r => (r, mapLabel r.label r.source)
    let buckets := dedupFirst (keyed.map (·.2.1))
    let mappedUnsorted := buckets.map fun b =>
      aggregateBucket b (keyed.filter (·.2.1 = b))
    let total := (mappedUnsorted.filterMap (·.percentage)).sum
    { raw_allocations := raws
      mapped_allocations :=
        insertionSortB (fun a b => decide (a.canonical_bucket.order ≤ b.canonical_bucket.order))
          mappedUnsorted
      conflicts := []
      total_percentage := if 0 < total then some total else none
      is_complete := decide (95 ≤ total) && decide (total ≤ 105)
      sources_used := pySetList dsLe (raws.map (·.source)) }

/-! ## Conflict detector (`src/allocation_mapper/conflict_detector.py`) -/

/-- Bucket resolution used by `detect_conflicts` when no `bucket_map` is
given: first mapped allocation whose `original_labels` contains the raw
label, else UNKNOWN. -/
def bucketOfRawLabel (ad : AllocationData) (label : String) : CanonicalBucket :=
  match ad.mapped_allocations.find? (fun m => m.original_labels.contains label) with
  | some m => m.canonical_bucket
  | none => .UNKNOWN

/-- The `ConflictDetector.detect_conflicts` (default
`percentage_threshold = 5`): group percentages by bucket and source
(nested dicts in first-occurrence order), sum per source, and emit a
conflict when at least two sources disagree by more than the
threshold. -/
def detectConflicts (threshold : ℚ) (ad : AllocationData) : List AllocationConflict :=
  let raws := ad.raw_allocations.filter (·.percentage.isSome)
  let keyed := raws.map fun r => (bucketOfRawLabel ad r.label, r)
  let buckets := dedupFirst (keyed.map (·.1))
  buckets.filterMap fun b =>
    let rs := (keyed.filter (·.1 = b)).map (·.2)
    let srcs := dedupFirst (rs.map (·.source))
    if srcs.length < 2 then none
    else
      let sums := srcs.map fun s =>
        (s, ((rs.filter (·.source = s)).filterMap (·.percentage)).sum)
      let vals := sums.map (·.2)
      let discrepancy := listMax vals - listMin vals
      if threshold < discrepancy then
        some { canonical_bucket := b
               sources_involved := srcs
               values := sums
               discrepancy_pct := discrepancy }
      else none

/-- A warning produced by `detect_total_issues`, in structured form (the
source builds a message string from exactly these data). -/
structure TotalIssue where
  source : DataSource
  total : ℚ
  above : Bool
deriving DecidableEq, Repr

/-- The `ConflictDetector.detect_total_issues` (default band 95–105): per
source (first-occurrence order), sum the non-null percentages and flag
totals outside the band. -/
def detectTotalIssues (minTotal maxTotal : ℚ) (ad : AllocationData) : List TotalIssue :=
  let raws := ad.raw_allocations.filter (·.percentage.isSome)
  let srcs := dedupFirst (raws.map (·.source))
  srcs.filterMap fun s =>
    let total := ((raws.filter (·.source = s)).filterMap (·.percentage)).sum
    if total < minTotal then some { source := s, total := total, above := false }
    else if maxTotal < total then some { source := s, total := total, above := true }
    else none

/-! ## Object-level model of `select` (mutation tracking)

Python lists are mutable objects passed by reference, and `select`
sorts its working list in place (`filtered_listings.sort`).  To state
what the caller's list looks like after the call, the listing lists are
placed on an explicit heap of cells; `_filter_valid_listings` allocates
a fresh cell, `_filter_outliers` either returns its argument cell
(aliasing) or allocates a fresh cell, and the in-place sort writes to
the returned cell.  The caller's cell is only ever read. -/

/-- Heap of list objects; a cell id is an index. -/
structure ListingHeap where
  cells : List (List ExchangeListing)
deriving Repr

/-- Read a cell (reads of dangling ids never occur). -/
def ListingHeap.read (h : ListingHeap) (i : Nat) : List ExchangeListing :=
  h.cells.getD i []

/-- Allocate a fresh cell holding `v`. -/
def ListingHeap.alloc (h : ListingHeap) (v : List ExchangeListing) : ListingHeap × Nat :=
  ({ cells := h.cells ++ [v] }, h.cells.length)

/-- Overwrite cell `i` (in-place list mutation). -/
def ListingHeap.write (h : ListingHeap) (i : Nat) (v : List ExchangeListing) : ListingHeap :=
  { cells := h.cells.set i v }

/-- The pure tail of `select` after the in-place sort: earliest-window
candidate selection, ranking, and result construction.  `sortedF` is
the content of the sorted working cell and `validConf` the content of
the `valid_listings` cell at confidence time. -/
def selectHeapResult (method : PriceSelectionMethod)
    (validLen : Nat) (sortedF validConf : List ExchangeListing) : Option ReferencePrice :=
  match sortedF with
  | [] => none
  | first :: rest =>
    let t0 := tsOf first
    let candidates := (first :: rest).filter fun l => decide (tsOf l ≤ t0 + 3600)
    let ranked := if 1 < candidates.length then pyStableSort rankingLe candidates
                  else candidates
    match ranked.head? with
    | none => none
    | some sel =>
      match sel.first_candle with
      | none => none
      | some candle =>
        let price := getPriceFromCandle candle method
        let confidence :=
          if 3 ≤ validLen then
            if top5Deviation validConf price < 5 then ConfidenceLevel.HIGH
            else ConfidenceLevel.MEDIUM
          else if 90 ≤ exchangeReliability sel.exchange then ConfidenceLevel.HIGH
          else ConfidenceLevel.MEDIUM
        some { price_usd := price
               timestamp := candle.timestamp
               method := method
               source_exchange := sel.exchange
               source_pair := sel.trading_pair
               confidence := confidence }

/-- The `PriceSelector.select` acting on the heap: the argument is the cell
id of the caller's listings.  `_filter_valid_listings` allocates a
fresh cell; `_filter_outliers` returns that cell itself except when it
actually filtered (fresh cell); the in-place sort overwrites the
returned cell; the rest is pure.  Returns the result and the final
heap. -/
def selectHeap (cfg : PriceSelectorCfg) (method : PriceSelectionMethod)
    (h : ListingHeap) (argId : Nat) : Option ReferencePrice × ListingHeap :=
  let valid := filterValidListings cfg (h.read argId)
  if valid.isEmpty then (none, h)
  else
    let av := h.alloc valid
    let af :=
      if valid.length < 3 then (av.1, av.2)
      else if (valid.filterMap fun l => l.first_candle.map (·.openPrice)).isEmpty then
        (av.1, av.2)
      else if (outlierSurvivors cfg valid).isEmpty then (av.1, av.2)
      else av.1.alloc (outlierSurvivors cfg valid)
    let h3 := af.1.write af.2
      (pyStableSort (fun a b => decide (tsOf a ≤ tsOf b)) (af.1.read af.2))
    (selectHeapResult method valid.length (h3.read af.2) (h3.read av.2), h3)

/-- The `PriceSelector.select_with_fallback` on the heap: the fallback path
only reads the CoinGecko listing and builds fresh objects. -/
def selectWithFallbackHeap (cfg : PriceSelectorCfg) (method : PriceSelectionMethod)
    (h : ListingHeap) (argId : Nat) (coingecko : Option ExchangeListing) :
    Option ReferencePrice × ListingHeap :=
  match selectHeap cfg method h argId with
  | (some r, h1) => (some r, h1)
  | (none, h1) =>
    match coingecko with
    | none => (none, h1)
    | some cg =>
      if cg.has_data then
        match cg.first_candle with
        | none => (none, h1)
        | some candle =>
          (some { price_usd := getPriceFromCandle candle method
                  timestamp := candle.timestamp
                  method := method
                  source_exchange := "coingecko"
                  source_pair := cg.trading_pair
                  confidence := ConfidenceLevel.LOW }, h1)
      else (none, h1)

/-! ## Theorems -/

/-- C9: `calc_fdv_to_raised` returns `fdv / total_raised` for every
positive `total_raised` (in particular `10_000_000_000 / 100_000_000 =
100`), and fails (raises, modelled as `none`) for every
`total_raised ≤ 0`, never returning a value in that case. -/
theorem calc_fdv_to_raised_spec (fdv total_raised : ℚ) :
    (0 < total_raised → calc_fdv_to_raised fdv total_raised = some (fdv / total_raised)) ∧
    (total_raised ≤ 0 → calc_fdv_to_raised fdv total_raised = none) ∧
    calc_fdv_to_raised 10000000000 100000000 = some 100 := by
  refine ⟨fun h => ?_, fun h => ?_, by with_unfolding_all decide⟩
  · rw [calc_fdv_to_raised, if_neg (not_le.mpr h)]
  · rw [calc_fdv_to_raised, if_pos h]

/-- Witness for C9 at concrete inputs. -/
theorem calc_fdv_to_raised_spec_witness :
    calc_fdv_to_raised 10000000000 100000000 = some (10000000000 / 100000000) ∧
    calc_fdv_to_raised 7 0 = none :=
  ⟨(calc_fdv_to_raised_spec 10000000000 100000000).1 (by norm_num),
   (calc_fdv_to_raised_spec 7 0).2.1 le_rfl⟩

/-- C4: on a non-empty list of valid listings (candles present),
`_filter_outliers` never returns an empty list; with fewer than 3
listings the input is returned unchanged; with 3 or more it returns the
median-deviation survivors unless that set is empty, in which case the
original input is kept. -/
theorem filterOutliers_spec (cfg : PriceSelectorCfg) (listings : List ExchangeListing)
    (hne : listings ≠ []) (hall : ∀ l ∈ listings, l.first_candle.isSome) :
    filterOutliers cfg listings ≠ [] ∧
    (listings.length < 3 → filterOutliers cfg listings = listings) ∧
    (3 ≤ listings.length →
      if outlierSurvivors cfg listings = [] then filterOutliers cfg listings = listings
      else filterOutliers cfg listings = outlierSurvivors cfg listings) := by
  have hpr : 3 ≤ listings.length →
      (listings.filterMap fun l => l.first_candle.map (·.openPrice)).isEmpty = false := by
    intro h3
    cases hl : listings with
    | nil => simp [hl] at hne
    | cons x xs =>
      have hx : x.first_candle.isSome := hall x (by simp [hl])
      cases hc : x.first_candle with
      | none => simp [hc] at hx
      | some c => simp [hl, List.filterMap_cons, hc]
  refine ⟨?_, fun hlt => ?_, fun h3 => ?_⟩
  · rw [filterOutliers]
    split
    · exact hne
    · rw [hpr (le_of_not_lt (by assumption))]
      simp only [Bool.false_eq_true, if_false]
      split
      · exact hne
      · rename_i hsur
        intro he
        rw [he] at hsur
        simp at hsur
  · rw [filterOutliers, if_pos hlt]
  · rw [filterOutliers, if_neg (not_lt.mpr h3), hpr h3]
    simp only [Bool.false_eq_true, if_false]
    split
    · rename_i hsur
      rw [if_pos (List.isEmpty_iff.mpr hsur)]
    · rename_i hsur
      rw [if_neg (fun he => hsur (List.isEmpty_iff.mp he))]

/-- Example listings for the C4 witness: three valid listings. -/
def c4Listings : List ExchangeListing :=
  [ { exchange := "binance", trading_pair := "TKN/USDT",
      first_candle := some { timestamp := 0, openPrice := 2, high := 2, low := 2,
                             close := 2, volume := 1 } },
    { exchange := "coinbase", trading_pair := "TKN/USD",
      first_candle := some { timestamp := 0, openPrice := 41/20, high := 41/20, low := 41/20,
                             close := 41/20, volume := 1 } },
    { exchange := "kraken", trading_pair := "TKN/USD",
      first_candle := some { timestamp := 0, openPrice := 5/2, high := 5/2, low := 5/2,
                             close := 5/2, volume := 1 } } ]

/-- Witness for C4 at a concrete input. -/
theorem filterOutliers_spec_witness :
    filterOutliers {} c4Listings ≠ [] ∧
    (c4Listings.length < 3 → filterOutliers {} c4Listings = c4Listings) ∧
    (3 ≤ c4Listings.length →
      if outlierSurvivors {} c4Listings = [] then filterOutliers {} c4Listings = c4Listings
      else filterOutliers {} c4Listings = outlierSurvivors {} c4Listings) :=
  filterOutliers_spec {} c4Listings (by decide) (by decide)

/-- C7: under the default rules, `map_label("Team", manual)` resolves to
TEAM_FOUNDER, and `map_label("Community Sale")` resolves to PUBLIC_SALES
(the community pattern's negative lookahead rejects labels containing
"sale", while `^community.*sale` of public_sales matches). -/
theorem mapLabel_team_and_community_sale :
    (mapLabel "Team" DataSource.MANUAL).1 = CanonicalBucket.TEAM_FOUNDER ∧
    (mapLabel "Community Sale" DataSource.UNKNOWN).1 = CanonicalBucket.PUBLIC_SALES ∧
    (reSearchAnchored (rnotAfter "community" "sale")
      (lowerStr "Community Sale").data).isSome = false := by
  refine ⟨by with_unfolding_all decide, by with_unfolding_all decide,
    by with_unfolding_all decide⟩

/-- C5 (code bug in the source): on the spec's example string the
parser extracts the TGE unlock, the cliff and the LINEAR schedule, but
`vesting_months` comes back empty: none of the
`PATTERNS["vesting_months"]` alternatives matches "24 months linear" —
`(\d+)\s*(?:month|mo|m)\s*(?:linear|vesting)` has no plural "s" after
the month unit, so the trailing "s" of "months" blocks the match.  The
repository's own tests (`test_parse_vesting_duration`,
`test_parse_complex_vesting`) assert 24 for exactly these inputs. -/
theorem vestingParse_complex_example :
    vestingParse "10% TGE, 6 month cliff, 24 months linear" =
      some { tge_unlock_pct := some 10
             cliff_months := some 6
             vesting_months := none
             schedule_type := VestingScheduleType.LINEAR
             unlock_frequency := none
             raw_description := some "10% TGE, 6 month cliff, 24 months linear" } ∧
    extractNumber vestingPatterns true (lowerStr "24 months linear").data = none := by
  refine ⟨by with_unfolding_all decide, by with_unfolding_all decide⟩

/-- Membership in `dedupFirst.go`. -/
theorem mem_dedupFirst_go [DecidableEq α] (a : α) :
    ∀ (l seen : List α), a ∈ dedupFirst.go seen l ↔ a ∈ l ∧ a ∉ seen
  | [], seen => by simp [dedupFirst.go]
  | x :: xs, seen => by
    rw [dedupFirst.go]
    split
    · rename_i hx
      rw [mem_dedupFirst_go a xs seen]
      constructor
      · rintro ⟨h1, h2⟩
        exact ⟨List.mem_cons_of_mem x h1, h2⟩
      · rintro ⟨h1, h2⟩
        rcases List.mem_cons.mp h1 with rfl | h1
        · exact absurd hx h2
        · exact ⟨h1, h2⟩
    · rename_i hx
      rw [List.mem_cons, mem_dedupFirst_go a xs (x :: seen)]
      constructor
      · rintro (rfl | ⟨h1, h2⟩)
        · exact ⟨List.mem_cons_self a xs, hx⟩
        · exact ⟨List.mem_cons_of_mem x h1, fun hs => h2 (List.mem_cons_of_mem x hs)⟩
      · rintro ⟨h1, h2⟩
        by_cases hax : a = x
        · exact Or.inl hax
        · refine Or.inr ⟨(List.mem_cons.mp h1).resolve_left hax, fun hs => ?_⟩
          rcases List.mem_cons.mp hs with h | h
          · exact hax h
          · exact h2 h

/-- The `dedupFirst` preserves membership. -/
theorem mem_dedupFirst [DecidableEq α] (a : α) (l : List α) :
    a ∈ dedupFirst l ↔ a ∈ l := by
  rw [dedupFirst, mem_dedupFirst_go]
  simp

/-- Any result of the stabilization loop comes from the first listed
hour passing both the venue-count gate and the spread gate; on a sorted
hour list every strictly earlier hour fails one of the two gates. -/
theorem findGo_spec (swaps : List DEXSwapData) (maxSpread : ℚ) (minDex : Nat) :
    ∀ (hours : List Int) (r : DEXStabilizationResult), hours.Sorted (· ≤ ·) →
      findStabilizationGo swaps maxSpread minDex hours = some r →
      r = stabilizationResultAt swaps r.stabilization_hour ∧
      r.stabilization_hour ∈ hours ∧
      minDex ≤ (qualifyingAt swaps r.stabilization_hour).length ∧
      spreadPctOf (qualifyingAt swaps r.stabilization_hour) ≤ maxSpread ∧
      ∀ h2 ∈ hours, h2 < r.stabilization_hour →
        (qualifyingAt swaps h2).length < minDex ∨
          maxSpread < spreadPctOf (qualifyingAt swaps h2)
  | [], r, _, heq => by simp [findStabilizationGo] at heq
  | h :: hs, r, hsort, heq => by
    rw [findStabilizationGo] at heq
    split at heq
    · rename_i hlen
      obtain ⟨h1, h2, h3, h4, h5⟩ :=
        findGo_spec swaps maxSpread minDex hs r hsort.of_cons heq
      refine ⟨h1, List.mem_cons_of_mem h h2, h3, h4, fun h2x hmem hlt => ?_⟩
      rcases List.mem_cons.mp hmem with rfl | hmem
      · exact Or.inl hlen
      · exact h5 h2x hmem hlt
    · split at heq
      · rename_i hlen hsp
        obtain rfl : stabilizationResultAt swaps h = r := Option.some.inj heq
        have hh : (stabilizationResultAt swaps h).stabilization_hour = h := rfl
        rw [hh]
        refine ⟨rfl, List.mem_cons_self h hs, le_of_not_lt hlen, hsp,
          fun h2x hmem hlt => ?_⟩
        rcases List.mem_cons.mp hmem with rfl | hmem
        · exact absurd hlt (lt_irrefl h2x)
        · exact absurd hlt (not_lt.mpr (List.rel_of_sorted_cons hsort h2x hmem))
      · rename_i hlen hsp
        obtain ⟨h1, h2, h3, h4, h5⟩ :=
          findGo_spec swaps maxSpread minDex hs r hsort.of_cons heq
        refine ⟨h1, List.mem_cons_of_mem h h2, h3, h4, fun h2x hmem hlt => ?_⟩
        rcases List.mem_cons.mp hmem with rfl | hmem
        · exact Or.inr (lt_of_not_le hsp)
        · exact h5 h2x hmem hlt

/-- The structural facts shared by the C2/C3 theorems: a returned
result is the one built at its own stabilization hour, that hour passed
both gates, and it appears among the input hours, the earlier of which
all failed a gate. -/
theorem find_stabilization_spec (swaps : List DEXSwapData) (maxSpread : ℚ)
    (minDex : Nat) (r : DEXStabilizationResult)
    (h : find_stabilization_hour swaps maxSpread minDex = some r) :
    r = stabilizationResultAt swaps r.stabilization_hour ∧
    minDex ≤ (qualifyingAt swaps r.stabilization_hour).length ∧
    spreadPctOf (qualifyingAt swaps r.stabilization_hour) ≤ maxSpread ∧
    ∀ h2 ∈ swaps.map (·.hour), h2 < r.stabilization_hour →
      (qualifyingAt swaps h2).length < minDex ∨
        maxSpread < spreadPctOf (qualifyingAt swaps h2) := by
  rw [find_stabilization_hour] at h
  split at h
  · exact absurd h (by simp)
  · have hsort : ((dedupFirst (swaps.map (·.hour))).insertionSort (· ≤ ·)).Sorted (· ≤ ·) :=
      List.sorted_insertionSort _ _
    obtain ⟨h1, _, h3, h4, h5⟩ := findGo_spec swaps maxSpread minDex _ r hsort h
    refine ⟨h1, h3, h4, fun h2x hmem hlt => ?_⟩
    refine h5 h2x ?_ hlt
    rw [List.Perm.mem_iff (List.perm_insertionSort _ _), mem_dedupFirst]
    exact hmem

/-- C2 (amended): the confidence of a returned stabilization result is
derived from the spread alone — HIGH iff spread < 0.5%, MEDIUM iff
0.5% ≤ spread < 1.0%, LOW otherwise (reachable only at spread exactly
equal to `max_spread_pct` = 1.0%); the number of qualifying venues plays
no role beyond the `min_dex_count` admission gate. -/
theorem find_stabilization_confidence (swaps : List DEXSwapData) (maxSpread : ℚ)
    (minDex : Nat) (r : DEXStabilizationResult)
    (h : find_stabilization_hour swaps maxSpread minDex = some r) :
    r.confidence =
      (if spreadPctOf (qualifyingAt swaps r.stabilization_hour) < 1/2 then "HIGH"
       else if spreadPctOf (qualifyingAt swaps r.stabilization_hour) < 1 then "MEDIUM"
       else "LOW") ∧
    minDex ≤ (qualifyingAt swaps r.stabilization_hour).length ∧
    spreadPctOf (qualifyingAt swaps r.stabilization_hour) ≤ maxSpread := by
  obtain ⟨h1, h2, h3, _⟩ := find_stabilization_spec swaps maxSpread minDex r h
  refine ⟨?_, h2, h3⟩
  conv_lhs => rw [h1]
  rfl

/-- Concrete hourly rows: one hour, exactly three venues with positive
prices and spread 0.2 %. -/
def c2Swaps : List DEXSwapData :=
  [ { hour := 0, swap_program := "orca", avg_price := some 1, swap_count := 10 },
    { hour := 0, swap_program := "phoenix", avg_price := some (1001/1000), swap_count := 10 },
    { hour := 0, swap_program := "raydium", avg_price := some (501/500), swap_count := 10 } ]

set_option maxRecDepth 100000 in
/-- C2 counterexample: exactly three qualifying venues and a spread
below 0.5% — the claim requires MEDIUM (HIGH needs ≥ 4 venues), but the
code returns HIGH. -/
theorem find_stabilization_confidence_counterexample :
    (qualifyingAt c2Swaps 0).length = 3 ∧
    spreadPctOf (qualifyingAt c2Swaps 0) = 1/5 ∧
    (find_stabilization_hour c2Swaps 1 3).map (·.confidence) = some "HIGH" := by
  refine ⟨by with_unfolding_all decide, by with_unfolding_all decide,
    by with_unfolding_all decide⟩

set_option maxRecDepth 100000 in
/-- Witness for C2 at a concrete input. -/
theorem find_stabilization_confidence_witness :
    find_stabilization_hour c2Swaps 1 3 = some (stabilizationResultAt c2Swaps 0) ∧
    ((stabilizationResultAt c2Swaps 0).confidence =
      (if spreadPctOf (qualifyingAt c2Swaps
            (stabilizationResultAt c2Swaps 0).stabilization_hour) < 1/2 then "HIGH"
       else if spreadPctOf (qualifyingAt c2Swaps
            (stabilizationResultAt c2Swaps 0).stabilization_hour) < 1 then "MEDIUM"
       else "LOW") ∧
     3 ≤ (qualifyingAt c2Swaps (stabilizationResultAt c2Swaps 0).stabilization_hour).length ∧
     spreadPctOf (qualifyingAt c2Swaps
        (stabilizationResultAt c2Swaps 0).stabilization_hour) ≤ 1) :=
  ⟨by with_unfolding_all decide,
   find_stabilization_confidence c2Swaps 1 3 _ (by with_unfolding_all decide)⟩

/-- C3 (amended): grouping is by hour and hours are scanned in ascending
order; a row qualifies through a positive (non-null) average price
alone — there is no swap-count threshold, so a zero-swap row with a
positive price participates in the venue count, the spread and the
per-venue price map; hours where fewer than `min_dex_count` rows qualify
(or the spread gate fails) are skipped. -/
theorem find_stabilization_qualification (swaps : List DEXSwapData) (maxSpread : ℚ)
    (minDex : Nat) (r : DEXStabilizationResult)
    (h : find_stabilization_hour swaps maxSpread minDex = some r) :
    minDex ≤ (qualifyingAt swaps r.stabilization_hour).length ∧
    r.dex_prices = (qualifyingAt swaps r.stabilization_hour).map
      (fun s => (s.swap_program, roundTo 4 (s.avg_price.getD 0))) ∧
    r.total_swaps = totalSwapsOf (qualifyingAt swaps r.stabilization_hour) ∧
    (∀ s ∈ qualifyingAt swaps r.stabilization_hour,
      s ∈ swaps ∧ s.hour = r.stabilization_hour ∧ 0 < s.avg_price.getD 0) ∧
    (∀ s ∈ swaps, s.hour = r.stabilization_hour →
      (∃ p, s.avg_price = some p ∧ 0 < p) →
      s ∈ qualifyingAt swaps r.stabilization_hour) ∧
    (∀ h2 ∈ swaps.map (·.hour), h2 < r.stabilization_hour →
      (qualifyingAt swaps h2).length < minDex ∨
        maxSpread < spreadPctOf (qualifyingAt swaps h2)) := by
  obtain ⟨h1, h2, _, h4⟩ := find_stabilization_spec swaps maxSpread minDex r h
  refine ⟨h2, ?_, ?_, ?_, ?_, h4⟩
  · conv_lhs => rw [h1]
    rfl
  · conv_lhs => rw [h1]
    rfl
  · intro s hs
    rw [qualifyingAt, List.mem_filter, List.mem_filter] at hs
    obtain ⟨⟨hmem, hhour⟩, hp⟩ := hs
    refine ⟨hmem, by simpa using hhour, ?_⟩
    cases hap : s.avg_price with
    | none => rw [hap] at hp; simp at hp
    | some p => rw [hap] at hp; simpa using of_decide_eq_true hp
  · rintro s hs hhour ⟨p, hap, hp⟩
    rw [qualifyingAt, List.mem_filter, List.mem_filter]
    exact ⟨⟨hs, by simpa using hhour⟩, by rw [hap]; simpa using hp⟩

/-- Concrete rows with a zero-swap venue ("meteora") whose positive
price is the hour's maximum. -/
def c3Swaps : List DEXSwapData :=
  [ { hour := 0, swap_program := "orca", avg_price := some 1, swap_count := 10 },
    { hour := 0, swap_program := "phoenix", avg_price := some (501/500), swap_count := 10 },
    { hour := 0, swap_program := "meteora", avg_price := some (251/250), swap_count := 0 } ]

set_option maxRecDepth 100000 in
/-- C3 counterexample: only two rows have any swaps at all, yet with
`min_dex_count = 3` a stabilization is found: the zero-swap "meteora"
row qualifies, appears in `dex_prices`, and its price (the maximum)
determines the reported 0.4% spread. -/
theorem find_stabilization_qualification_counterexample :
    (c3Swaps.filter fun s => 1 ≤ s.swap_count).length = 2 ∧
    c3Swaps.map (·.swap_count) = [10, 10, 0] ∧
    (find_stabilization_hour c3Swaps 1 3).map (·.dex_prices) =
      some [("orca", 1), ("phoenix", 501/500), ("meteora", 251/250)] ∧
    (find_stabilization_hour c3Swaps 1 3).map (·.spread_pct) = some (2/5) := by
  refine ⟨by with_unfolding_all decide, by with_unfolding_all decide,
    by with_unfolding_all decide, by with_unfolding_all decide⟩

set_option maxRecDepth 100000 in
/-- Witness for C3 at a concrete input. -/
theorem find_stabilization_qualification_witness :
    3 ≤ (qualifyingAt c3Swaps (stabilizationResultAt c3Swaps 0).stabilization_hour).length ∧
    (stabilizationResultAt c3Swaps 0).dex_prices =
      (qualifyingAt c3Swaps (stabilizationResultAt c3Swaps 0).stabilization_hour).map
        (fun s => (s.swap_program, roundTo 4 (s.avg_price.getD 0))) :=
  ⟨(find_stabilization_qualification c3Swaps 1 3 _ (by with_unfolding_all decide)).1,
   (find_stabilization_qualification c3Swaps 1 3 _ (by with_unfolding_all decide)).2.1⟩

/-- C1 (amended): for a successful `select`, the confidence is HIGH iff
either at least 3 valid listings exist and the selected price is within
(strictly) 5% of the mean of the first five valid listings' opens, or
fewer than 3 valid listings exist and the selected venue's reliability
is at least 90; otherwise MEDIUM.  The reliability disjunct is an
`elif`: it is unreachable when 3 or more valid listings exist. -/
theorem select_confidence_spec (cfg : PriceSelectorCfg) (listings : List ExchangeListing)
    (method : PriceSelectionMethod) (rp : ReferencePrice) (sel : ExchangeListing)
    (h : select cfg listings method = some rp)
    (hsel : selectedListing cfg listings = some sel) :
    (rp.confidence = ConfidenceLevel.HIGH ∨ rp.confidence = ConfidenceLevel.MEDIUM) ∧
    (rp.confidence = ConfidenceLevel.HIGH ↔
      ((3 ≤ (filterValidListings cfg listings).length ∧
        top5Deviation (validAtConfidence cfg (filterValidListings cfg listings))
          rp.price_usd < 5) ∨
       ((filterValidListings cfg listings).length < 3 ∧
        90 ≤ exchangeReliability sel.exchange))) := by
  rw [select] at h
  split at h
  · exact absurd h (by simp)
  · rw [hsel] at h
    dsimp only [] at h
    cases hc : sel.first_candle with
    | none =>
      rw [hc] at h
      exact absurd h (by simp)
    | some candle =>
      rw [hc] at h
      dsimp only [] at h
      have hrp := (Option.some.inj h).symm
      subst hrp
      simp only []
      rw [selectConfidence]
      by_cases h3 : 3 ≤ (filterValidListings cfg listings).length
      · rw [if_pos h3]
        by_cases hdev : top5Deviation (validAtConfidence cfg (filterValidListings cfg listings))
            (getPriceFromCandle candle method) < 5
        · rw [if_pos hdev]
          exact ⟨Or.inl rfl, iff_of_true rfl (Or.inl ⟨h3, hdev⟩)⟩
        · rw [if_neg hdev]
          refine ⟨Or.inr rfl, iff_of_false (by decide) ?_⟩
          rintro (⟨_, hd⟩ | ⟨hlt, _⟩)
          · exact hdev hd
          · exact absurd h3 (not_le.mpr hlt)
      · rw [if_neg h3]
        by_cases hrel : 90 ≤ exchangeReliability sel.exchange
        · rw [if_pos hrel]
          exact ⟨Or.inl rfl, iff_of_true rfl (Or.inr ⟨not_le.mp h3, hrel⟩)⟩
        · rw [if_neg hrel]
          refine ⟨Or.inr rfl, iff_of_false (by decide) ?_⟩
          rintro (⟨h3x, _⟩ | ⟨_, hr⟩)
          · exact h3 h3x
          · exact hrel hr

/-- First listing of the C1 example (binance, reliability 100). -/
def c1First : ExchangeListing :=
  { exchange := "binance", trading_pair := "TKN/USDT",
    first_candle := some { timestamp := 0, openPrice := 1, high := 1, low := 1,
                           close := 1, volume := 1 } }

/-- C1 example: three valid listings with opens 1, 1, 2 at the same
timestamp; the 2-open listing is dropped as an outlier, binance is
selected by reliability, and the top-5 mean is 4/3. -/
def c1Listings : List ExchangeListing :=
  [ c1First,
    { exchange := "coinbase", trading_pair := "TKN/USDT",
      first_candle := some { timestamp := 0, openPrice := 1, high := 1, low := 1,
                             close := 1, volume := 1 } },
    { exchange := "kraken", trading_pair := "TKN/USDT",
      first_candle := some { timestamp := 0, openPrice := 2, high := 2, low := 2,
                             close := 2, volume := 1 } } ]

set_option maxRecDepth 100000 in
/-- C1 counterexample: three valid listings, the selected venue's
reliability is 100 ≥ 90, the 5% test fails (deviation 25%), and the
returned confidence is MEDIUM — the claim's disjunction would make it
HIGH. -/
theorem select_confidence_counterexample :
    (select {} c1Listings PriceSelectionMethod.EARLIEST_OPEN).map (·.confidence) =
      some ConfidenceLevel.MEDIUM ∧
    (select {} c1Listings PriceSelectionMethod.EARLIEST_OPEN).map (·.source_exchange) =
      some "binance" ∧
    90 ≤ exchangeReliability "binance" ∧
    3 ≤ (filterValidListings {} c1Listings).length ∧
    top5Deviation (validAtConfidence {} (filterValidListings {} c1Listings)) 1 = 25 := by
  refine ⟨by with_unfolding_all decide, by with_unfolding_all decide,
    by with_unfolding_all decide, by with_unfolding_all decide,
    by with_unfolding_all decide⟩

/-- The `ReferencePrice` returned on the C1 example. -/
def c1Result : ReferencePrice :=
  { price_usd := 1, timestamp := 0, method := PriceSelectionMethod.EARLIEST_OPEN,
    source_exchange := "binance", source_pair := "TKN/USDT",
    confidence := ConfidenceLevel.MEDIUM }

set_option maxRecDepth 100000 in
/-- Witness for C1 at a concrete input. -/
theorem select_confidence_spec_witness :
    (c1Result.confidence = ConfidenceLevel.HIGH ∨
      c1Result.confidence = ConfidenceLevel.MEDIUM) ∧
    (c1Result.confidence = ConfidenceLevel.HIGH ↔
      ((3 ≤ (filterValidListings {} c1Listings).length ∧
        top5Deviation (validAtConfidence {} (filterValidListings {} c1Listings))
          c1Result.price_usd < 5) ∨
       ((filterValidListings {} c1Listings).length < 3 ∧
        90 ≤ exchangeReliability c1First.exchange))) :=
  select_confidence_spec {} c1Listings PriceSelectionMethod.EARLIEST_OPEN c1Result c1First
    (by with_unfolding_all decide) (by with_unfolding_all decide)

/-- The `dedupFirst.go` never duplicates. -/
theorem nodup_dedupFirst_go [DecidableEq α] :
    ∀ (l seen : List α), (dedupFirst.go seen l).Nodup
  | [], _ => List.nodup_nil
  | x :: xs, seen => by
    rw [dedupFirst.go]
    split
    · exact nodup_dedupFirst_go xs seen
    · refine List.nodup_cons.mpr ⟨fun hmem => ?_, nodup_dedupFirst_go xs (x :: seen)⟩
      exact ((mem_dedupFirst_go x xs (x :: seen)).mp hmem).2 (List.mem_cons_self x seen)

/-- The `dedupFirst` yields a duplicate-free list. -/
theorem nodup_dedupFirst [DecidableEq α] (l : List α) : (dedupFirst l).Nodup :=
  nodup_dedupFirst_go l []

/-- A single `ite` summand vanishes over keys missing `k`. -/
theorem sum_ite_key_zero [DecidableEq κ] (c : ℚ) (k : κ) :
    ∀ ks : List κ, k ∉ ks → (ks.map fun b => if k = b then c else 0).sum = 0
  | [], _ => rfl
  | b :: ks, hk => by
    have hne : k ≠ b := fun he => hk (he ▸ List.mem_cons_self b ks)
    simp only [List.map_cons, List.sum_cons, if_neg hne]
    rw [sum_ite_key_zero c k ks (fun h => hk (List.mem_cons_of_mem b h)), add_zero]

/-- A single `ite` summand contributes once over a duplicate-free key
list containing `k`. -/
theorem sum_ite_key [DecidableEq κ] (c : ℚ) (k : κ) :
    ∀ ks : List κ, ks.Nodup → k ∈ ks →
      (ks.map fun b => if k = b then c else 0).sum = c
  | [], _, hk => absurd hk (List.not_mem_nil k)
  | b :: ks, hnd, hk => by
    simp only [List.map_cons, List.sum_cons]
    rcases List.mem_cons.mp hk with rfl | hk
    · rw [if_pos rfl, sum_ite_key_zero c k ks (List.nodup_cons.mp hnd).1, add_zero]
    · have hne : k ≠ b := fun he => (List.nodup_cons.mp hnd).1 (he ▸ hk)
      rw [if_neg hne, sum_ite_key c k ks (List.nodup_cons.mp hnd).2 hk, zero_add]

/-- Pointwise sums distribute over a mapped list. -/
theorem sum_map_add (f g : κ → ℚ) :
    ∀ ks : List κ, (ks.map fun b => f b + g b).sum = (ks.map f).sum + (ks.map g).sum
  | [] => by simp
  | b :: ks => by
    simp only [List.map_cons, List.sum_cons, sum_map_add f g ks]
    ring

/-- Head step of a `filterMap` sum. -/
theorem filterMap_sum_cons (g : α → Option ℚ) (x : α) (l : List α) :
    ((x :: l).filterMap g).sum = (g x).getD 0 + (l.filterMap g).sum := by
  cases hgx : g x <;> simp [List.filterMap_cons, hgx]

/-- Summing fiber-wise over a duplicate-free covering key list equals
summing the whole list. -/
theorem sum_fiber [DecidableEq κ] (key : α → κ) (g : α → Option ℚ) :
    ∀ (l : List α) (ks : List κ), ks.Nodup → (∀ x ∈ l, key x ∈ ks) →
      (ks.map fun b => ((l.filter fun x => key x = b).filterMap g).sum).sum
        = (l.filterMap g).sum
  | [], ks, _, _ => by simp [List.filter_nil]
  | x :: l, ks, hnd, hcov => by
    have hx : key x ∈ ks := hcov x (List.mem_cons_self x l)
    have IH := sum_fiber key g l ks hnd fun y hy => hcov y (List.mem_cons_of_mem x hy)
    have hsplit : ∀ b : κ,
        (((x :: l).filter fun y => key y = b).filterMap g).sum
          = (if key x = b then (g x).getD 0 else 0)
            + ((l.filter fun y => key y = b).filterMap g).sum := by
      intro b
      by_cases hb : key x = b
      · rw [List.filter_cons_of_pos (by simpa using hb), filterMap_sum_cons, if_pos hb]
      · rw [List.filter_cons_of_neg (by simpa using hb), if_neg hb, zero_add]
    calc (ks.map fun b => (((x :: l).filter fun y => key y = b).filterMap g).sum).sum
        = (ks.map fun b => (if key x = b then (g x).getD 0 else 0)
            + ((l.filter fun y => key y = b).filterMap g).sum).sum := by
          congr 1
          exact List.map_congr_left fun b _ => hsplit b
      _ = (ks.map fun b => if key x = b then (g x).getD 0 else 0).sum
            + (ks.map fun b => ((l.filter fun y => key y = b).filterMap g).sum).sum :=
          sum_map_add _ _ ks
      _ = (g x).getD 0 + (l.filterMap g).sum := by
          rw [sum_ite_key _ _ ks hnd hx, IH]
      _ = ((x :: l).filterMap g).sum := (filterMap_sum_cons g x l).symm

/-- The optional per-bucket percentages of the aggregated allocations
sum to the same value as the raw per-bucket fiber sums. -/
theorem mapped_total_eq (keyed : List (RawAllocation × CanonicalBucket × String × Nat)) :
    ∀ buckets : List CanonicalBucket,
      ((buckets.map fun b => aggregateBucket b (keyed.filter (·.2.1 = b))).filterMap
          (·.percentage)).sum
        = (buckets.map fun b =>
            ((keyed.filter (·.2.1 = b)).filterMap (·.1.percentage)).sum).sum
  | [] => rfl
  | b :: bs => by
    simp only [List.map_cons, List.sum_cons]
    rw [List.filterMap_cons]
    have hagg : (aggregateBucket b (keyed.filter (·.2.1 = b))).percentage
        = if ((keyed.filter (·.2.1 = b)).filterMap (·.1.percentage)).isEmpty then none
          else some ((keyed.filter (·.2.1 = b)).filterMap (·.1.percentage)).sum := rfl
    by_cases hp : ((keyed.filter (·.2.1 = b)).filterMap (·.1.percentage)).isEmpty
    · rw [hagg, if_pos hp]
      rw [List.isEmpty_iff.mp hp]
      simp only [List.sum_nil, zero_add]
      exact mapped_total_eq keyed bs
    · rw [hagg, if_neg hp]
      simp only [List.sum_cons]
      rw [mapped_total_eq keyed bs]

/-- Total of the non-null raw percentages (the quantity the spec calls
the summed total percentage). -/
def pctSum (raws : List RawAllocation) : ℚ :=
  (raws.filterMap (·.percentage)).sum

attribute [irreducible] mapLabel

/-- A one-source allocation set summing to 97%. -/
def c8Raws97 : List RawAllocation :=
  [ { source := DataSource.MANUAL, label := "Team", percentage := some 97 } ]

/-- A one-source allocation set summing to 80%. -/
def c8Raws80 : List RawAllocation :=
  [ { source := DataSource.MANUAL, label := "Team", percentage := some 80 } ]

set_option maxRecDepth 100000 in
set_option maxHeartbeats 2000000 in
/-- C8: `map_allocations` marks the result complete exactly when the
summed raw percentages lie in [95, 105]; a 97% set is complete, an 80%
single-source set is not and `detect_total_issues` flags that source as
below the default 95–105 band. -/
theorem mapAllocations_is_complete :
    (∀ raws : List RawAllocation,
      ((mapAllocations raws).is_complete = true ↔
        95 ≤ pctSum raws ∧ pctSum raws ≤ 105)) ∧
    (mapAllocations c8Raws97).is_complete = true ∧
    (mapAllocations c8Raws80).is_complete = false ∧
    detectTotalIssues 95 105 (mapAllocations c8Raws80) =
      [{ source := DataSource.MANUAL, total := 80, above := false }] := by
  refine ⟨?_, by with_unfolding_all decide, by with_unfolding_all decide,
    by with_unfolding_all decide⟩
  intro raws
  rw [mapAllocations]
  split
  · rename_i hemp
    rw [List.isEmpty_iff.mp hemp]
    constructor
    · intro hfalse
      exact absurd hfalse (by decide)
    · rintro ⟨h95, _⟩
      rw [pctSum] at h95
      norm_num at h95
  · dsimp only []
    have hcov : ∀ x ∈ raws.map fun r => (r, mapLabel r.label r.source),
        x.2.1 ∈ dedupFirst ((raws.map fun r => (r, mapLabel r.label r.source)).map (·.2.1)) :=
      fun x hx => (mem_dedupFirst _ _).mpr (List.mem_map_of_mem _ hx)
    have htot := (mapped_total_eq (raws.map fun r => (r, mapLabel r.label r.source))
        (dedupFirst ((raws.map fun r => (r, mapLabel r.label r.source)).map (·.2.1)))).trans
      ((sum_fiber (·.2.1) (·.1.percentage) (raws.map fun r => (r, mapLabel r.label r.source))
          (dedupFirst ((raws.map fun r => (r, mapLabel r.label r.source)).map (·.2.1)))
          (nodup_dedupFirst _) hcov).trans
        (by rw [List.filterMap_map]))
    rw [htot]
    rw [Bool.and_eq_true, decide_eq_true_iff, decide_eq_true_iff]
    exact Iff.rfl

/-- Reading below the allocation point is unaffected by `alloc`. -/
theorem read_alloc_lt (h : ListingHeap) (v : List ExchangeListing) (i : Nat)
    (hi : i < h.cells.length) : (h.alloc v).1.read i = h.read i := by
  rw [ListingHeap.alloc, ListingHeap.read, ListingHeap.read]
  dsimp only []
  rw [List.getD_eq_getElem?_getD, List.getD_eq_getElem?_getD, List.getElem?_append_left hi]

/-- Reading another cell is unaffected by `write`. -/
theorem read_write_ne (h : ListingHeap) (i j : Nat) (v : List ExchangeListing)
    (hij : i ≠ j) : (h.write j v).read i = h.read i := by
  rw [ListingHeap.write, ListingHeap.read, ListingHeap.read]
  dsimp only []
  rw [List.getD_eq_getElem?_getD, List.getD_eq_getElem?_getD,
    List.getElem?_set_ne (fun he => hij he.symm)]

/-- Allocation appends one cell. -/
theorem alloc_cells_length (h : ListingHeap) (v : List ExchangeListing) :
    (h.alloc v).1.cells.length = h.cells.length + 1 := by
  rw [ListingHeap.alloc]
  simp

/-- C10: `select` (and `select_with_fallback`) never mutates the
caller's listing list: the argument cell holds the same elements in the
same order after the call.  The in-place timestamp sort writes only to
the cell produced by `_filter_valid_listings` or the fresh cell produced
by `_filter_outliers`, both allocated inside the call. -/
theorem selectHeap_frame (cfg : PriceSelectorCfg) (method : PriceSelectionMethod)
    (h : ListingHeap) (argId : Nat) (harg : argId < h.cells.length)
    (cg : Option ExchangeListing) :
    (selectHeap cfg method h argId).2.read argId = h.read argId ∧
    (selectWithFallbackHeap cfg method h argId cg).2.read argId = h.read argId := by
  have hv : ∀ v : List ExchangeListing, (h.alloc v).1.read argId = h.read argId :=
    fun v => read_alloc_lt h v argId harg
  have hlt1 : ∀ v : List ExchangeListing, argId < (h.alloc v).1.cells.length := by
    intro v
    rw [alloc_cells_length]
    omega
  have hne0 : ∀ v : List ExchangeListing, argId ≠ (h.alloc v).2 := by
    intro v
    rw [ListingHeap.alloc]
    omega
  have hne1 : ∀ v s : List ExchangeListing, argId ≠ ((h.alloc v).1.alloc s).2 := by
    intro v s
    have := hlt1 v
    rw [ListingHeap.alloc]
    omega
  have main : (selectHeap cfg method h argId).2.read argId = h.read argId := by
    rw [selectHeap]
    split
    · rfl
    · dsimp only []
      split_ifs
      · rw [read_write_ne _ _ _ _ (hne0 _), hv]
      · rw [read_write_ne _ _ _ _ (hne0 _), hv]
      · rw [read_write_ne _ _ _ _ (hne0 _), hv]
      · rw [read_write_ne _ _ _ _ (hne1 _ _), read_alloc_lt _ _ _ (hlt1 _), hv]
  refine ⟨main, ?_⟩
  rw [selectWithFallbackHeap]
  rcases hres : selectHeap cfg method h argId with ⟨r, h1⟩
  rw [hres] at main
  cases r with
  | some rp => exact main
  | none =>
    cases cg with
    | none => exact main
    | some cgl =>
      dsimp only []
      split
      · cases hc : cgl.first_candle with
        | none => exact main
        | some candle => exact main
      · exact main

/-- A single valid listing for the C10 witness heap. -/
def c10Listing : ExchangeListing :=
  { exchange := "kraken", trading_pair := "TKN/USD",
    first_candle := some { timestamp := 5, openPrice := 3, high := 3, low := 3,
                           close := 3, volume := 2 } }

/-- The C10 witness heap: one caller-owned cell. -/
def c10Heap : ListingHeap := { cells := [[c10Listing]] }

/-- Witness for C10 at a concrete heap. -/
theorem selectHeap_frame_witness :
    (selectHeap {} PriceSelectionMethod.EARLIEST_OPEN c10Heap 0).2.read 0 = c10Heap.read 0 ∧
    (selectWithFallbackHeap {} PriceSelectionMethod.EARLIEST_OPEN c10Heap 0 none).2.read 0 =
      c10Heap.read 0 :=
  selectHeap_frame {} PriceSelectionMethod.EARLIEST_OPEN c10Heap 0
    (by with_unfolding_all decide) none

/-- The min fold is a member-or-initial lower bound. -/
theorem foldl_min_spec : ∀ (xs : List ℚ) (b : ℚ),
    (xs.foldl min b ∈ xs ∨ xs.foldl min b = b) ∧
    xs.foldl min b ≤ b ∧ ∀ a ∈ xs, xs.foldl min b ≤ a
  | [], b => ⟨Or.inr rfl, le_refl b, by simp⟩
  | x :: xs, b => by
    obtain ⟨hmem, hle, hall⟩ := foldl_min_spec xs (min b x)
    simp only [List.foldl_cons]
    refine ⟨?_, le_trans hle (min_le_left b x), fun a ha => ?_⟩
    · rcases hmem with h | h
      · exact Or.inl (List.mem_cons_of_mem x h)
      · rcases le_total b x with hbx | hxb
        · exact Or.inr (by rw [h, min_eq_left hbx])
        · exact Or.inl (by rw [h, min_eq_right hxb]; exact List.mem_cons_self x xs)
    · rcases List.mem_cons.mp ha with rfl | ha
      · exact le_trans hle (min_le_right b a)
      · exact hall a ha

/-- The max fold is a member-or-initial upper bound. -/
theorem foldl_max_spec : ∀ (xs : List ℚ) (b : ℚ),
    (xs.foldl max b ∈ xs ∨ xs.foldl max b = b) ∧
    b ≤ xs.foldl max b ∧ ∀ a ∈ xs, a ≤ xs.foldl max b
  | [], b => ⟨Or.inr rfl, le_refl b, by simp⟩
  | x :: xs, b => by
    obtain ⟨hmem, hle, hall⟩ := foldl_max_spec xs (max b x)
    simp only [List.foldl_cons]
    refine ⟨?_, le_trans (le_max_left b x) hle, fun a ha => ?_⟩
    · rcases hmem with h | h
      · exact Or.inl (List.mem_cons_of_mem x h)
      · rcases le_total x b with hxb | hbx
        · exact Or.inr (by rw [h, max_eq_left hxb])
        · exact Or.inl (by rw [h, max_eq_right hbx]; exact List.mem_cons_self x xs)
    · rcases List.mem_cons.mp ha with rfl | ha
      · exact le_trans (le_max_right b a) hle
      · exact hall a ha

/-- The `listMin` is a member and a lower bound of a non-empty list. -/
theorem listMin_spec (l : List ℚ) (hne : l ≠ []) :
    listMin l ∈ l ∧ ∀ a ∈ l, listMin l ≤ a := by
  cases l with
  | nil => exact absurd rfl hne
  | cons x xs =>
    obtain ⟨hmem, hle, hall⟩ := foldl_min_spec xs x
    rw [listMin]
    refine ⟨?_, fun a ha => ?_⟩
    · rcases hmem with h | h
      · exact List.mem_cons_of_mem x h
      · rw [h]; exact List.mem_cons_self x xs
    · rcases List.mem_cons.mp ha with rfl | ha
      · exact hle
      · exact hall a ha

/-- The `listMax` is a member and an upper bound of a non-empty list. -/
theorem listMax_spec (l : List ℚ) (hne : l ≠ []) :
    listMax l ∈ l ∧ ∀ a ∈ l, a ≤ listMax l := by
  cases l with
  | nil => exact absurd rfl hne
  | cons x xs =>
    obtain ⟨hmem, hle, hall⟩ := foldl_max_spec xs x
    rw [listMax]
    refine ⟨?_, fun a ha => ?_⟩
    · rcases hmem with h | h
      · exact List.mem_cons_of_mem x h
      · rw [h]; exact List.mem_cons_self x xs
    · rcases List.mem_cons.mp ha with rfl | ha
      · exact hle
      · exact hall a ha

/-- The `listMin` only depends on the multiset of elements. -/
theorem listMin_perm (l1 l2 : List ℚ) (hp : List.Perm l1 l2) :
    listMin l1 = listMin l2 := by
  by_cases h1 : l1 = []
  · subst h1
    rw [List.perm_nil.mp hp.symm]
  · have h2 : l2 ≠ [] := fun he => h1 (List.perm_nil.mp (by rw [← he]; exact hp))
    obtain ⟨hm1, hall1⟩ := listMin_spec l1 h1
    obtain ⟨hm2, hall2⟩ := listMin_spec l2 h2
    exact le_antisymm (hall1 _ (hp.mem_iff.mpr hm2)) (hall2 _ (hp.mem_iff.mp hm1))

/-- The `listMax` only depends on the multiset of elements. -/
theorem listMax_perm (l1 l2 : List ℚ) (hp : List.Perm l1 l2) :
    listMax l1 = listMax l2 := by
  by_cases h1 : l1 = []
  · subst h1
    rw [List.perm_nil.mp hp.symm]
  · have h2 : l2 ≠ [] := fun he => h1 (List.perm_nil.mp (by rw [← he]; exact hp))
    obtain ⟨hm1, hall1⟩ := listMax_spec l1 h1
    obtain ⟨hm2, hall2⟩ := listMax_spec l2 h2
    exact le_antisymm (hall2 _ (hp.mem_iff.mp hm1)) (hall1 _ (hp.mem_iff.mpr hm2))

/-- Per-hour qualification only permutes under input permutation. -/
theorem qualifying_perm (s1 s2 : List DEXSwapData) (hp : List.Perm s1 s2) (h : Int) :
    List.Perm (qualifyingAt s1 h) (qualifyingAt s2 h) :=
  (hp.filter _).filter _

/-- The spread is permutation-invariant. -/
theorem spreadPctOf_perm (qs1 qs2 : List DEXSwapData) (hp : List.Perm qs1 qs2) :
    spreadPctOf qs1 = spreadPctOf qs2 := by
  rw [spreadPctOf, spreadPctOf, pricesOf, pricesOf,
    listMin_perm _ _ (hp.map _), listMax_perm _ _ (hp.map _)]

/-- The total swap count is permutation-invariant. -/
theorem totalSwapsOf_perm (qs1 qs2 : List DEXSwapData) (hp : List.Perm qs1 qs2) :
    totalSwapsOf qs1 = totalSwapsOf qs2 := by
  rw [totalSwapsOf, totalSwapsOf, (hp.map _).sum_eq]

/-- The weighted reference price is permutation-invariant. -/
theorem vwapOf_perm (qs1 qs2 : List DEXSwapData) (hp : List.Perm qs1 qs2) :
    vwapOf qs1 = vwapOf qs2 := by
  rw [vwapOf, vwapOf, (hp.map _).sum_eq, totalSwapsOf_perm _ _ hp]

/-- The sorted deduplicated hour list is permutation-invariant. -/
theorem hours_eq (s1 s2 : List DEXSwapData) (hp : List.Perm s1 s2) :
    (dedupFirst (s1.map (·.hour))).insertionSort (· ≤ ·) =
      (dedupFirst (s2.map (·.hour))).insertionSort (· ≤ ·) := by
  apply List.eq_of_perm_of_sorted ?_ (List.sorted_insertionSort _ _)
    (List.sorted_insertionSort _ _)
  refine ((List.perm_insertionSort _ _).trans ?_).trans
    (List.perm_insertionSort _ _).symm
  apply List.perm_of_nodup_nodup_toFinset_eq (nodup_dedupFirst _) (nodup_dedupFirst _)
  ext a
  simp only [List.mem_toFinset, mem_dedupFirst]
  exact (hp.map (·.hour)).mem_iff

/-- The projection of a stabilization result to the fields the
determinism claim names (everything except the per-venue price list,
whose order follows the input order). -/
def stabProj (r : DEXStabilizationResult) : Int × ℚ × ℚ × String × Nat :=
  (r.stabilization_hour, r.reference_price, r.spread_pct, r.confidence, r.total_swaps)

/-- The stabilization loop is permutation-invariant up to `stabProj`
for a fixed hour list. -/
theorem findGo_perm (s1 s2 : List DEXSwapData) (hp : List.Perm s1 s2) (p : ℚ) (q : Nat) :
    ∀ hours : List Int,
      (findStabilizationGo s1 p q hours).map stabProj =
        (findStabilizationGo s2 p q hours).map stabProj
  | [] => rfl
  | h :: hs => by
    rw [findStabilizationGo, findStabilizationGo]
    have hq := qualifying_perm s1 s2 hp h
    have hlen := hq.length_eq
    have hsp := spreadPctOf_perm _ _ hq
    by_cases hc1 : (qualifyingAt s1 h).length < q
    · have hc1b : (qualifyingAt s2 h).length < q := by rw [← hlen]; exact hc1
      rw [if_pos hc1, if_pos hc1b]
      exact findGo_perm s1 s2 hp p q hs
    · have hc1b : ¬(qualifyingAt s2 h).length < q := by rw [← hlen]; exact hc1
      rw [if_neg hc1, if_neg hc1b]
      by_cases hc2 : spreadPctOf (qualifyingAt s1 h) ≤ p
      · have hc2b : spreadPctOf (qualifyingAt s2 h) ≤ p := by rw [← hsp]; exact hc2
        rw [if_pos hc2, if_pos hc2b]
        have hpr : stabProj (stabilizationResultAt s1 h) =
            stabProj (stabilizationResultAt s2 h) := by
          show (h, roundTo 4 (vwapOf (qualifyingAt s1 h)),
                roundTo 2 (spreadPctOf (qualifyingAt s1 h)),
                stabilizationConfidence (spreadPctOf (qualifyingAt s1 h)),
                totalSwapsOf (qualifyingAt s1 h))
              = (h, roundTo 4 (vwapOf (qualifyingAt s2 h)),
                roundTo 2 (spreadPctOf (qualifyingAt s2 h)),
                stabilizationConfidence (spreadPctOf (qualifyingAt s2 h)),
                totalSwapsOf (qualifyingAt s2 h))
          rw [vwapOf_perm _ _ hq, hsp, totalSwapsOf_perm _ _ hq]
        simp only [Option.map_some']
        rw [hpr]
      · have hc2b : ¬spreadPctOf (qualifyingAt s2 h) ≤ p := by rw [← hsp]; exact hc2
        rw [if_neg hc2, if_neg hc2b]
        exact findGo_perm s1 s2 hp p q hs

/-- C6 (amended): `find_stabilization_hour` is order-independent in its
stabilization hour, reference price, spread, confidence and total swap
count (only the per-venue price list keeps input order); the other
engine outputs are not order-independent — see the counterexample. -/
theorem find_stabilization_perm_invariant (s1 s2 : List DEXSwapData)
    (hp : List.Perm s1 s2) (p : ℚ) (q : Nat) :
    (find_stabilization_hour s1 p q).map stabProj =
      (find_stabilization_hour s2 p q).map stabProj := by
  rw [find_stabilization_hour, find_stabilization_hour]
  by_cases h1 : s1 = []
  · subst h1
    have h2 := List.perm_nil.mp hp.symm
    subst h2
    rfl
  · have h2 : s2 ≠ [] := fun he => h1 (List.perm_nil.mp (by rw [← he]; exact hp))
    rw [if_neg (by simpa [List.isEmpty_iff] using h1),
      if_neg (by simpa [List.isEmpty_iff] using h2)]
    rw [hours_eq s1 s2 hp]
    exact findGo_perm s1 s2 hp p q _

/-- A listing for the C6 example (all-equal OHLC, no volume filter). -/
def c6mk (ex : String) (o : ℚ) (ts : Int) : ExchangeListing :=
  { exchange := ex, trading_pair := "TKN/USDT",
    first_candle := some { timestamp := ts, openPrice := o, high := o, low := o,
                           close := o, volume := 1 } }

/-- Six valid listings at one timestamp; binance (open 100, reliability
100) wins the ranking tie-break in every order. -/
def c6La : List ExchangeListing :=
  [c6mk "binance" 100 0, c6mk "coinbase" 100 0, c6mk "okx" 100 0,
   c6mk "kraken" 100 0, c6mk "bybit" 102 0, c6mk "kucoin" 75 0]

/-- The same six listings with the last two swapped. -/
def c6Lb : List ExchangeListing :=
  [c6mk "binance" 100 0, c6mk "coinbase" 100 0, c6mk "okx" 100 0,
   c6mk "kraken" 100 0, c6mk "kucoin" 75 0, c6mk "bybit" 102 0]

/-- Vesting terms A. -/
def c6V1 : VestingTerms := { tge_unlock_pct := some 10 }

/-- Vesting terms B. -/
def c6V2 : VestingTerms := { tge_unlock_pct := some 20 }

/-- Two allocations mapping to the same bucket with different vesting. -/
def c6Ra : List RawAllocation :=
  [ { source := DataSource.MANUAL, label := "Team", percentage := some 50,
      vesting := some c6V1 },
    { source := DataSource.MANUAL, label := "Founders", percentage := some 30,
      vesting := some c6V2 } ]

/-- The same two allocations in the other order. -/
def c6Rb : List RawAllocation :=
  [ { source := DataSource.MANUAL, label := "Founders", percentage := some 30,
      vesting := some c6V2 },
    { source := DataSource.MANUAL, label := "Team", percentage := some 50,
      vesting := some c6V1 } ]

/-- Conflicting allocations in two buckets from two sources. -/
def c6Ca : List RawAllocation :=
  [ { source := DataSource.COINGECKO, label := "Team", percentage := some 10 },
    { source := DataSource.CRYPTORANK, label := "Team", percentage := some 20 },
    { source := DataSource.COINGECKO, label := "Investors", percentage := some 10 },
    { source := DataSource.CRYPTORANK, label := "Investors", percentage := some 20 } ]

/-- The same allocations with the two bucket groups exchanged. -/
def c6Cb : List RawAllocation :=
  [ { source := DataSource.COINGECKO, label := "Investors", percentage := some 10 },
    { source := DataSource.CRYPTORANK, label := "Investors", percentage := some 20 },
    { source := DataSource.COINGECKO, label := "Team", percentage := some 10 },
    { source := DataSource.CRYPTORANK, label := "Team", percentage := some 20 } ]

set_option maxRecDepth 200000 in
set_option maxHeartbeats 4000000 in
/-- C6 counterexample: permuting the inputs changes (a) the confidence
of `select` (the 5% test averages the first five valid listings in
input order), (b) the vesting terms picked by `map_allocations` (first
non-null in input order), and (c) the order of the conflict list of
`detect_conflicts` (first-occurrence bucket order). -/
theorem engine_perm_counterexample :
    List.Perm c6La c6Lb ∧
    (select {} c6La PriceSelectionMethod.EARLIEST_OPEN).map (·.confidence) =
      some ConfidenceLevel.HIGH ∧
    (select {} c6Lb PriceSelectionMethod.EARLIEST_OPEN).map (·.confidence) =
      some ConfidenceLevel.MEDIUM ∧
    List.Perm c6Ra c6Rb ∧
    (mapAllocations c6Ra).mapped_allocations ≠ (mapAllocations c6Rb).mapped_allocations ∧
    List.Perm c6Ca c6Cb ∧
    detectConflicts 5 (mapAllocations c6Ca) ≠ detectConflicts 5 (mapAllocations c6Cb) := by
  refine ⟨by with_unfolding_all decide, by with_unfolding_all decide,
    by with_unfolding_all decide, by with_unfolding_all decide,
    by with_unfolding_all decide, by with_unfolding_all decide,
    by with_unfolding_all decide⟩

/-- Hourly rows for the C6 witness. -/
def c6Sa : List DEXSwapData :=
  [ { hour := 0, swap_program := "orca", avg_price := some 1, swap_count := 10 },
    { hour := 0, swap_program := "phoenix", avg_price := some (1001/1000), swap_count := 20 },
    { hour := 0, swap_program := "raydium", avg_price := some (501/500), swap_count := 30 } ]

/-- The same rows reversed. -/
def c6Sb : List DEXSwapData :=
  [ { hour := 0, swap_program := "raydium", avg_price := some (501/500), swap_count := 30 },
    { hour := 0, swap_program := "phoenix", avg_price := some (1001/1000), swap_count := 20 },
    { hour := 0, swap_program := "orca", avg_price := some 1, swap_count := 10 } ]

set_option maxRecDepth 100000 in
/-- Witness for C6 at a concrete permutation. -/
theorem find_stabilization_perm_invariant_witness :
    (find_stabilization_hour c6Sa 1 3).map stabProj =
      (find_stabilization_hour c6Sb 1 3).map stabProj :=
  find_stabilization_perm_invariant c6Sa c6Sb (by with_unfolding_all decide) 1 3

end TokenBench
